import Mathlib

/-!
# ViennaPS GPU ray tracer: reflection samplers and result channels

A shallow embedding of `GPU/rayTracing/curtReflection.hpp`, of the host
side bookkeeping of `GPU/rayTracing/curtTracer.hpp` and of the material
map of `include/psMaterials.hpp`.

Conventions of the embedding.

* `float` / `T` values are elements of a linearly ordered field `α`
  (exact arithmetic: rounding, infinities and NaN are not represented).
  Every definition is computable for a computable `α` such as `ℚ`; the
  theorems hold for every such field and in particular for `ℝ`.
* `sqrtf`, `cosf`, `sinf`, `cos` and the constant `PI_F` come from the CUDA
  math library; they are a parameter (`FloatMath`) of the functions that
  call them.
* A `do … while` loop without an iteration bound becomes a function with a
  fuel argument that returns `none` when the fuel is used up.
* `unsigned int` values are natural numbers reduced modulo `2 ^ 32`,
  `int` values are integers reduced to the two's complement range.
* An `assert` that fails is the result `none` (`Except.error` where the
  cause matters).
* `apply()` returns the list of the calls it issues (`ApplyEvent`) next to
  the new state; the geometry provider, the random device and the transport
  kernel are a parameter (`ApplyEnv`). OptiX and CUDA calls are taken to
  succeed.
-/

set_option autoImplicit false

/-! ## Part 1: definitions -/

namespace gdt

/-- Modelled from the spec: the three component vector `gdt::vec3f` of
`utGDT.hpp` (that header is not part of the sources at hand); component
`v[0]`, `v[1]`, `v[2]` is `v.x`, `v.y`, `v.z`. -/
@[ext]
structure vec3 (α : Type) where
  x : α
  y : α
  z : α

variable {α : Type} [LinearOrderedField α]

/-- Modelled from the spec: component-wise `a + b` of `gdt::vec3f`. -/
def vec3.add (a b : vec3 α) : vec3 α := ⟨a.x + b.x, a.y + b.y, a.z + b.z⟩

/-- Modelled from the spec: component-wise `a - b` of `gdt::vec3f`. -/
def vec3.sub (a b : vec3 α) : vec3 α := ⟨a.x - b.x, a.y - b.y, a.z - b.z⟩

/-- Modelled from the spec: scalar multiple `c * a` of `gdt::vec3f`. -/
def vec3.smul (c : α) (a : vec3 α) : vec3 α := ⟨c * a.x, c * a.y, c * a.z⟩

/-- Modelled from the spec: the reversed vector `-a` of `gdt::vec3f`. -/
def vec3.neg (a : vec3 α) : vec3 α := ⟨-a.x, -a.y, -a.z⟩

/-- Modelled from the spec: `gdt::dot`, the Euclidean inner product. -/
def dot (a b : vec3 α) : α := a.x * b.x + a.y * b.y + a.z * b.z

end gdt

/-- The CUDA math functions used by the reflection samplers, passed as a
parameter: `sqrtf`, `cosf`, `sinf`, the double precision `cos`, and the
constant `PI_F`. -/
structure FloatMath (α : Type) where
  sqrtf : α → α
  cosf : α → α
  sinf : α → α
  cos : α → α
  PI_F : α

namespace gdt

variable {α : Type} [LinearOrderedField α]

/-- Modelled from the spec: `gdt::normalize` of `utGDT.hpp` (not part of
the sources at hand), the vector divided by its Euclidean length
`sqrtf (dot v v)`. -/
def normalize (m : FloatMath α) (v : vec3 α) : vec3 α :=
  vec3.smul (1 / m.sqrtf (dot v v)) v

end gdt

open gdt

/-- Modelled from the spec: the private per-ray random stream
(`curtRNGState`, declared in a header that is not part of the sources at
hand): an infinite sequence of uniform draws and the position of the next
one. -/
structure curtRNGState (α : Type) where
  draws : Nat → α
  pos : Nat

/-- Modelled from the spec: `getNextRand(&state)` returns the next uniform
draw of the private stream and advances the stream by one. -/
def getNextRand {α : Type} (s : curtRNGState α) : α × curtRNGState α :=
  (s.draws s.pos, { s with pos := s.pos + 1 })

/-- Modelled from the spec: `curand_uniform(state)` returns the next uniform
draw of the private stream and advances the stream by one. -/
def curand_uniform {α : Type} (s : curtRNGState α) : α × curtRNGState α :=
  (s.draws s.pos, { s with pos := s.pos + 1 })

/-- The fields of `PerRayData` (`curtPerRayData.hpp`) that the reflection
samplers read and write: position, direction and the random stream. -/
structure PerRayData (α : Type) where
  pos : vec3 α
  dir : vec3 α
  RNGstate : curtRNGState α

section Reflection

variable {α : Type} [LinearOrderedField α]

/-- Function `specularReflection(prd, geoNormal)` (curtReflection.hpp, lines 19-23).
`tmax` is the value of `optixGetRayTmax()`. The position is advanced along
the incoming direction first, then the direction is mirrored. -/
def specularReflection (tmax : α) (prd : PerRayData α) (geoNormal : vec3 α) :
    PerRayData α :=
  let pos := vec3.add prd.pos (vec3.smul tmax prd.dir)
  let dir := vec3.sub prd.dir (vec3.smul (2 * dot prd.dir geoNormal) geoNormal)
  { prd with pos := pos, dir := dir }

/-- The result of the inner polar rejection loop of `conedCosineReflection`:
the values of `u`, `sqrt_1m_u` and `angle` of the accepted iteration and the
advanced random stream. -/
structure PolarSample (α : Type) where
  u : α
  sqrt_1m_u : α
  angle : α
  rng : curtRNGState α

/-- The inner loop of lines 39-44 of curtReflection.hpp:
`do { u = sqrtf(rand); sqrt_1m_u = sqrtf(1 - u); angle = avgReflAngle *
sqrt_1m_u; } while (rand * angle * u > cosf(PI_F / 2 * sqrt_1m_u) *
sinf(angle));` -/
def polarLoop (m : FloatMath α) (avgReflAngle : α) :
    Nat → curtRNGState α → Option (PolarSample α)
  | 0, _ => none
  | fuel + 1, s =>
    let r1 := getNextRand s
    let u := m.sqrtf r1.1
    let sqrt_1m_u := m.sqrtf (1 - u)
    let angle := avgReflAngle * sqrt_1m_u
    let r2 := getNextRand r1.2
    if r2.1 * angle * u > m.cosf (m.PI_F / 2 * sqrt_1m_u) * m.sinf angle then
      polarLoop m avgReflAngle fuel r2.2
    else
      some ⟨u, sqrt_1m_u, angle, r2.2⟩

/-- The result of the azimuthal rejection loop of `conedCosineReflection`:
`cosphi`, `sinphi`, `temp = cosphi² + sinphi²` of the accepted iteration and
the advanced random stream. -/
structure AzimuthSample (α : Type) where
  cosphi : α
  sinphi : α
  temp : α
  rng : curtRNGState α

/-- The loop of lines 51-55 of curtReflection.hpp:
`do { cosphi = rand - 0.5; sinphi = rand - 0.5; temp = cosphi * cosphi +
sinphi * sinphi; } while (temp >= 0.25 || temp <= 1e-6f);` -/
def azimuthLoop : Nat → curtRNGState α → Option (AzimuthSample α)
  | 0, _ => none
  | fuel + 1, s =>
    let r1 := getNextRand s
    let cosphi := r1.1 - 1 / 2
    let r2 := getNextRand r1.2
    let sinphi := r2.1 - 1 / 2
    let temp := cosphi * cosphi + sinphi * sinphi
    if temp ≥ 1 / 4 ∨ temp ≤ 1 / 1000000 then
      azimuthLoop fuel r2.2
    else
      some ⟨cosphi, sinphi, temp, r2.2⟩

/-- The rotation of lines 57-82 of curtReflection.hpp: from the specular
direction `dir`, the clamped `costheta` and an accepted azimuthal sample
to the candidate `randomDir`, the final swap of the first two components
included. -/
def rotate (m : FloatMath α) (dir : vec3 α) (costheta : α)
    (az : AzimuthSample α) : vec3 α :=
  let a0 := if |dir.x| ≤ |dir.y| then dir.x else dir.y
  let a1 := if |dir.x| ≤ |dir.y| then dir.y else dir.x
  let temp := m.sqrtf (max (1 - costheta * costheta) 0 / (az.temp * (1 - a0 * a0)))
  let sinphi := az.sinphi * temp
  let cosphi := az.cosphi * temp
  let temp := costheta + a0 * sinphi
  let r0 := a0 * costheta - (1 - a0 * a0) * sinphi
  let r1 := a1 * temp + dir.z * cosphi
  let r2 := dir.z * temp - a1 * cosphi
  if a0 ≠ dir.x then ⟨r1, r0, r2⟩ else ⟨r0, r1, r2⟩

/-- The outer loop of lines 38-83 of curtReflection.hpp. `dir` is the
specular direction stored in `prd->dir` before the loop; the loop returns
the accepted `randomDir` and the advanced random stream. One unit of fuel
is one iteration of the outer loop; the inner loops get the same bound. -/
def conedLoop (m : FloatMath α) (avgReflAngle : α) (geomNormal dir : vec3 α) :
    Nat → curtRNGState α → Option (vec3 α × curtRNGState α)
  | 0, _ => none
  | fuel + 1, s =>
    match polarLoop m avgReflAngle (fuel + 1) s with
    | none => none
    | some pol =>
      let costheta := max (min (m.cos pol.angle) 1) 0
      match azimuthLoop (fuel + 1) pol.rng with
      | none => none
      | some az =>
        let randomDir := rotate m dir costheta az
        if dot randomDir geomNormal ≤ 0 then
          conedLoop m avgReflAngle geomNormal dir fuel az.rng
        else
          some (randomDir, az.rng)

/-- Function `conedCosineReflection(prd, avgReflAngle, geomNormal)`
(curtReflection.hpp, lines 25-86): the specular reflection, then the
rejection loop, then `prd->dir = randomDir`. -/
def conedCosineReflection (m : FloatMath α) (tmax : α) (fuel : Nat)
    (prd : PerRayData α) (avgReflAngle : α) (geomNormal : vec3 α) :
    Option (PerRayData α) :=
  let prd1 := specularReflection tmax prd geomNormal
  match conedLoop m avgReflAngle geomNormal prd1.dir fuel prd1.RNGstate with
  | none => none
  | some res => some { prd1 with dir := res.1, RNGstate := res.2 }

/-- Function `PickRandomPointOnUnitSphere(state)` (curtReflection.hpp, lines 88-100):
the rejection loop over the unit disk followed by the disk-to-sphere map.
Returns the point and the advanced random stream. -/
def PickRandomPointOnUnitSphere (m : FloatMath α) :
    Nat → curtRNGState α → Option (vec3 α × curtRNGState α)
  | 0, _ => none
  | fuel + 1, s =>
    let r1 := curand_uniform s
    let x := 2 * r1.1 - 1
    let r2 := curand_uniform r1.2
    let y := 2 * r2.1 - 1
    let x2py2 := x * x + y * y
    if x2py2 ≥ 1 then
      PickRandomPointOnUnitSphere m fuel r2.2
    else
      let tmp := 2 * m.sqrtf (1 - x2py2)
      some (⟨x * tmp, y * tmp, 1 - 2 * x2py2⟩, r2.2)

/-- Function `diffuseReflection(prd)` (curtReflection.hpp, lines 102-112).
`geoNormal` is the value of `computeNormal(sbtData, optixGetPrimitiveIndex())`
and `tmax` the value of `optixGetRayTmax()`. -/
def diffuseReflection (m : FloatMath α) (tmax : α) (geoNormal : vec3 α)
    (fuel : Nat) (prd : PerRayData α) : Option (PerRayData α) :=
  match PickRandomPointOnUnitSphere m fuel prd.RNGstate with
  | none => none
  | some res =>
    let pos := vec3.add prd.pos (vec3.smul tmax prd.dir)
    let dir := vec3.add geoNormal res.1
    some { pos := pos, dir := gdt.normalize m dir, RNGstate := res.2 }

/-- The values computed by one pass through the body of the azimuthal loop
(lines 52-54 of curtReflection.hpp) from the stream `s`: `cosphi`, `sinphi`,
`temp` and the stream after the two draws. -/
def azimuthCandidate (s : curtRNGState α) : AzimuthSample α :=
  let r1 := getNextRand s
  let cosphi := r1.1 - 1 / 2
  let r2 := getNextRand r1.2
  let sinphi := r2.1 - 1 / 2
  ⟨cosphi, sinphi, cosphi * cosphi + sinphi * sinphi, r2.2⟩

/-- The value of `a0` of lines 58-67 of curtReflection.hpp: the one of
`dir[0]`, `dir[1]` that is not larger in magnitude. -/
def rotationA0 (dir : vec3 α) : α := if |dir.x| ≤ |dir.y| then dir.x else dir.y

/-- The divisor `temp * (1. - a0 * a0)` of line 69 of curtReflection.hpp. -/
def rotationDivisor (dir : vec3 α) (az : AzimuthSample α) : α :=
  az.temp * (1 - rotationA0 dir * rotationA0 dir)

end Reflection

/-! ### The host side of the tracer (curtTracer.hpp) -/

/-- The number of values of an `unsigned int`: `2 ^ 32`. -/
def UINT_RANGE : Nat := 4294967296

/-- The value of an `int` converted to `unsigned int` (reduction modulo
`2 ^ 32`). -/
def toUInt (x : Int) : Nat := (x % 4294967296).toNat

/-- The value of an `int` converted to `size_t` (reduction modulo
`2 ^ 64`). -/
def toSizeT (x : Int) : Nat := (x % 18446744073709551616).toNat

/-- The result of an `int` operation whose mathematical value is `x`,
reduced to the two's complement range `[-2 ^ 31, 2 ^ 31)`. -/
def wrapInt (x : Int) : Int := (x + 2147483648) % 4294967296 - 2147483648

namespace gdt

/-- Modelled from the spec: the two component vector of `utGDT.hpp` that
holds a corner of the source plane. -/
structure vec2 (α : Type) where
  x : α
  y : α

end gdt

/-- Modelled from the spec: `curtParticle<T>` (curtParticle.hpp is not part
of the sources at hand), with the fields the tracer reads: the name, the
number of output channels `numberOfData`, the per-species launch parameters
and the channel labels. -/
structure curtParticle (α : Type) where
  name : String
  numberOfData : Nat
  sticking : α
  cosineExponent : α
  meanIonEnergy : α
  sigmaIonEnergy : α
  A_O : α
  dataLabels : List String

/-- Modelled from the spec: the source plane bounds of `curtLaunchParams`
(curtLaunchParams.hpp is not part of the sources at hand). -/
structure curtSource (α : Type) where
  minPoint : vec2 α
  maxPoint : vec2 α
  gridDelta : α

/-- Modelled from the spec: the fields of `curtLaunchParams<T>` that the host
code of the tracer reads and writes. -/
structure curtLaunchParams (α : Type) where
  numElements : Nat
  seed : Nat
  periodicBoundary : Bool
  source : curtSource α
  cosineExponent : α
  sticking : α
  meanIonEnergy : α
  sigmaIonEnergy : α
  A_O : α

/-- Modelled from the spec: `utCudaBuffer` (utCudaBuffer.hpp is not part of
the sources at hand), a device allocation of `sizeInBytes` bytes; `values`
are the values of type `T` stored in it. A buffer handed in by a caller may
have any byte size. -/
structure utCudaBuffer (α : Type) where
  sizeInBytes : Nat
  values : List α

/-- Modelled from the spec: `alloc_and_init(count, value)` of `utCudaBuffer`
allocates `count` values of `sizeofT` bytes each, all equal to `value`. -/
def utCudaBuffer.alloc_and_init {α : Type} (sizeofT count : Nat) (value : α) :
    utCudaBuffer α :=
  ⟨count * sizeofT, List.replicate count value⟩

/-- The host state of `curtTracer<T, D>` (curtTracer.hpp, lines 590-656)
without the OptiX handles. The result buffer, which only `alloc_and_init`
allocates, is the list of its values of type `T`; `sbts` is the length of
the vector `sbts`; `dataPerParticle` is the content uploaded to
`dataPerParticleBuffer`. -/
structure curtTracer (α : Type) where
  particles : List (curtParticle α)
  dataPerParticle : List Nat
  numRates : Nat
  cellDataBuffer : utCudaBuffer α
  sbts : Nat
  launchParams : curtLaunchParams α
  resultBuffer : List α
  geometryValid : Bool
  useRandomSeed : Bool
  numCellData : Nat
  numberOfRaysPerPoint : Int
  numberOfRaysFixed : Int
  numRays : Nat

section Tracer

variable {α : Type}

/-- The loop of lines 270-275 of curtTracer.hpp started at the value `acc`
of `numRates`: `numRates += p.numberOfData` in `unsigned int` arithmetic,
for every particle in registration order. -/
def accumulateRates (particles : List (curtParticle α)) (acc : Nat) : Nat :=
  particles.foldl (fun r p => (r + p.numberOfData) % UINT_RANGE) acc

/-- Function `prepareParticlePrograms()` (curtTracer.hpp, lines 258-280). The
creation of module, program groups and pipelines touches only OptiX
handles and is left out; the function returns `numRates` and the new
host state. -/
def prepareParticlePrograms (t : curtTracer α) : Nat × curtTracer α :=
  let sbts := if t.sbts = 0 then t.particles.length else t.sbts
  let numRates := accumulateRates t.particles 0
  let dataPerParticle := t.particles.map (fun p => p.numberOfData % UINT_RANGE)
  (numRates, { t with sbts := sbts, numRates := numRates,
                      dataPerParticle := dataPerParticle })

/-- The loop of lines 232-235 of curtTracer.hpp:
`for (size_t i = 0; i < particles.size(); i++) if (particleIdx > i)
offset += particles[i].numberOfData;` started at index `i` with the value
`offset`, over the particles from index `i` on. The comparison converts
`particleIdx` to `size_t`. -/
def getFluxLoop (particleIdx : Int) : List (curtParticle α) → Nat → Nat → Nat
  | [], _, offset => offset
  | p :: ps, i, offset =>
    getFluxLoop particleIdx ps (i + 1)
      (if toSizeT particleIdx > i then (offset + p.numberOfData) % UINT_RANGE
       else offset)

/-- The channel index `offset + dataIdx` of line 238 of curtTracer.hpp, an
`unsigned int`. -/
def getFluxChannel (particles : List (curtParticle α)) (particleIdx dataIdx : Int) :
    Nat :=
  (getFluxLoop particleIdx particles 0 0 + toUInt dataIdx) % UINT_RANGE

/-- The element offset `(offset + dataIdx) * launchParams.numElements` of
line 238 of curtTracer.hpp, an `unsigned int`. -/
def getFluxStart (particles : List (curtParticle α)) (numElements : Nat)
    (particleIdx dataIdx : Int) : Nat :=
  (getFluxChannel particles particleIdx dataIdx * numElements) % UINT_RANGE

/-- Function `getFlux(flux, particleIdx, dataIdx)` (curtTracer.hpp, lines 230-241).
Returns the values written to `flux`. `temp` receives the first
`numElements * numRates` values of the result buffer, and `numElements`
values are copied from `temp[offset]` on. -/
def getFlux (t : curtTracer α) (particleIdx dataIdx : Int) : List α :=
  let temp := t.resultBuffer.take
    ((t.launchParams.numElements * t.numRates) % UINT_RANGE)
  let offset := getFluxStart t.particles t.launchParams.numElements particleIdx dataIdx
  (temp.drop offset).take t.launchParams.numElements

/-- One `memcpy` of `downloadResultsToPointData`: the label read from
`dataLabels[dIdx]` (`none` when `dIdx` is past the end of the labels), the
`int` channel index `tmpOffset`, and the element offset
`tmpOffset * numPoints` into `temp`, an `unsigned int`. -/
structure ChannelCopy where
  name : Option String
  tmpOffset : Int
  start : Nat
deriving DecidableEq

/-- The copies issued by the loops of lines 317-336 of curtTracer.hpp for
the particles from some index on, where `offset` is the value of the `int`
variable `offset` on entry: the inner loop runs `dIdx` from `0` to
`numberOfData - 1` with `tmpOffset = offset + dIdx`, then
`offset += numberOfData`. -/
def downloadCopies (numPoints : Nat) : List (curtParticle α) → Int → List ChannelCopy
  | [], _ => []
  | p :: ps, offset =>
    (List.range p.numberOfData).map (fun (dIdx : Nat) =>
        let tmpOffset := wrapInt (offset + (dIdx : Int))
        ChannelCopy.mk p.dataLabels[dIdx]? tmpOffset
          ((toUInt tmpOffset * numPoints) % UINT_RANGE))
      ++ downloadCopies numPoints ps (wrapInt (offset + (p.numberOfData : Int)))

/-- Modelled from the spec: the device kernel `normalize_surface_f` /
`normalize_surface_d` launched by `normalize()` (the kernel source is not
part of the sources at hand): a single pass dividing every raw accumulated
value by `numRays × numElements / sourceArea`. -/
def normalize_surface [LinearOrderedField α] (data : List α) (numElements : Nat)
    (sourceArea : α) (numRays : Nat) : List α :=
  data.map (fun v => v / ((numRays : α) * (numElements : α) / sourceArea))

/-- Function `normalize()` (curtTracer.hpp, lines 360-375): computes `sourceArea`
from the source plane bounds, asserts that the result buffer is not empty
and runs the kernel on the result buffer. -/
def curtTracer.normalize [LinearOrderedField α] (t : curtTracer α) :
    Option (curtTracer α) :=
  let sourceArea :=
    (t.launchParams.source.maxPoint.x - t.launchParams.source.minPoint.x) *
    (t.launchParams.source.maxPoint.y - t.launchParams.source.minPoint.y)
  if t.resultBuffer.length = 0 then none
  else some { t with resultBuffer :=
    normalize_surface t.resultBuffer t.launchParams.numElements sourceArea t.numRays }

/-- The sum of `numberOfData` over a list of particles, as a natural number
(the quantity `Σ species.numberOfData` of the specification). -/
def sumNumberOfData (particles : List (curtParticle α)) : Nat :=
  (particles.map (fun p => p.numberOfData)).sum

/-- The channel offset of species `particleIdx` as the specification words
it: the cumulative `numberOfData` of the preceding species. -/
def channelOffset (particles : List (curtParticle α)) (particleIdx : Nat) : Nat :=
  sumNumberOfData (particles.take particleIdx)

/-- The way `setCellData` can stop: a failed `assert`, or the integer
division by `numData = 0`. -/
inductive Abort where
  | assertion
  | divisionByZero
deriving DecidableEq

/-- Function `setCellData(passedCellDataBuffer, numData)` (curtTracer.hpp,
lines 174-178): `assert(sizeInBytes / sizeof(T) / numData == numElements)`
with integer division, then the buffer is stored. `sizeofT` is `sizeof(T)`. -/
def setCellData (sizeofT : Nat) (t : curtTracer α)
    (passedCellDataBuffer : utCudaBuffer α) (numData : Nat) :
    Except Abort (curtTracer α) :=
  if numData = 0 then Except.error Abort.divisionByZero
  else if passedCellDataBuffer.sizeInBytes / sizeofT / numData
      = t.launchParams.numElements then
    Except.ok { t with cellDataBuffer := passedCellDataBuffer }
  else Except.error Abort.assertion

/-- Function `setUseCellData(numData)` (curtTracer.hpp, line 243). -/
def setUseCellData (t : curtTracer α) (numData : Nat) : curtTracer α :=
  { t with numCellData := numData }

/-- Function `setNumberOfRaysPerPoint(pNumRays)` (curtTracer.hpp, lines
220-222): the `size_t` argument is narrowed to the `int` member. -/
def setNumberOfRaysPerPoint (t : curtTracer α) (pNumRays : Nat) : curtTracer α :=
  { t with numberOfRaysPerPoint := wrapInt (pNumRays : Int) }

/-- Function `setFixedNumberOfRays(pNumRays)` (curtTracer.hpp, lines 224-226):
the `size_t` argument is narrowed to the `int` member. -/
def setFixedNumberOfRays (t : curtTracer α) (pNumRays : Nat) : curtTracer α :=
  { t with numberOfRaysFixed := wrapInt (pNumRays : Int) }

/-- The collaborators of `apply()` outside the tracer: the geometry provider
(`buildAccelFromDomain` sets the element count and the source plane in the
launch parameters), the value drawn from `std::random_device`, and the
transport kernel. Modelled from the spec: a launch for species `i` with the
uploaded launch parameters and the grid `x, y, z` accumulates a contribution
into every entry of the result buffer. -/
structure ApplyEnv (α : Type) where
  buildAccelFromDomain : curtLaunchParams α → curtLaunchParams α
  randomSeed : Nat
  launchContribution : Nat → curtLaunchParams α → Nat → Nat → Nat → Nat → α

/-- The calls that `apply()` issues, in the order of issue. -/
inductive ApplyEvent (α : Type) where
  | buildAccel
  | tooManyRays (numRays : Nat)
  | upload (params : curtLaunchParams α)
  | buildSBT (i : Nat)
  | optixLaunch (i x y z : Nat)
  | cudaDeviceSynchronize
  | normalize

/-- The launch parameters after lines 102-106 of curtTracer.hpp for the
particle `p`. -/
def particleParams (lp : curtLaunchParams α) (p : curtParticle α) :
    curtLaunchParams α :=
  { lp with cosineExponent := p.cosineExponent, sticking := p.sticking,
            meanIonEnergy := p.meanIonEnergy, sigmaIonEnergy := p.sigmaIonEnergy,
            A_O := p.A_O }

/-- The loop of lines 100-119 of curtTracer.hpp over the particles from index
`i` on: per particle the parameters are uploaded, the SBT is built and the
launch with the grid `x, y, z` is issued. Returns the calls, the launch
parameters and the result buffer after the loop. -/
def launchLoop [LinearOrderedField α] (env : ApplyEnv α) (x y z : Nat) :
    List (curtParticle α) → Nat → curtLaunchParams α → List α →
      List (ApplyEvent α) × curtLaunchParams α × List α
  | [], _, lp, buf => ([], lp, buf)
  | p :: ps, i, lp, buf =>
    let lp1 := particleParams lp p
    let buf1 := buf.mapIdx (fun j v => v + env.launchContribution i lp1 x y z j)
    let r := launchLoop env x y z ps (i + 1) lp1 buf1
    ([ApplyEvent.upload lp1, ApplyEvent.buildSBT i, ApplyEvent.optixLaunch i x y z]
      ++ r.1, r.2.1, r.2.2)

/-- The launch parameters after lines 60-63 of curtTracer.hpp: the geometry
is rebuilt when it is not valid. -/
def applyLaunchParams (env : ApplyEnv α) (t : curtTracer α) : curtLaunchParams α :=
  if t.geometryValid then t.launchParams
  else env.buildAccelFromDomain t.launchParams

/-- The value `numCellData * launchParams.numElements` of lines 66 and 70
of curtTracer.hpp, an `unsigned int`. -/
def applyCellCount (env : ApplyEnv α) (t : curtTracer α) : Nat :=
  (t.numCellData * (applyLaunchParams env t).numElements) % UINT_RANGE

/-- The cell data buffer after lines 65-68 of curtTracer.hpp. -/
def applyCellData [LinearOrderedField α] (sizeofT : Nat) (env : ApplyEnv α)
    (t : curtTracer α) : utCudaBuffer α :=
  if t.numCellData ≠ 0 ∧ t.cellDataBuffer.sizeInBytes = 0 then
    utCudaBuffer.alloc_and_init sizeofT (applyCellCount env t) 0
  else t.cellDataBuffer

/-- The number of values of the result buffer allocated in line 73 of
curtTracer.hpp: `launchParams.numElements * numRates`, an `unsigned int`. -/
def applyResultCount (env : ApplyEnv α) (t : curtTracer α) : Nat :=
  ((applyLaunchParams env t).numElements * t.numRates) % UINT_RANGE

/-- The value of `numPointsPerDim` after lines 82-88 of curtTracer.hpp. The
square root of the element count is taken exactly and truncated. -/
def applyPointsPerDim (env : ApplyEnv α) (t : curtTracer α) : Int :=
  if t.numberOfRaysFixed > 0 then 1
  else (Nat.sqrt (applyLaunchParams env t).numElements : Int)

/-- The value of `numberOfRaysPerPoint` after lines 85-88 of curtTracer.hpp. -/
def applyRaysPerPoint (t : curtTracer α) : Int :=
  if t.numberOfRaysFixed > 0 then t.numberOfRaysFixed else t.numberOfRaysPerPoint

/-- The value of `numRays` after line 90 of curtTracer.hpp: the product of
three `int` values, computed in `int` and converted to `size_t`. -/
def applyNumRays (env : ApplyEnv α) (t : curtTracer α) : Nat :=
  toSizeT (wrapInt (wrapInt (applyPointsPerDim env t * applyPointsPerDim env t)
    * applyRaysPerPoint t))

/-- The launch parameters after lines 76-80 of curtTracer.hpp: a fresh seed
is stored when `useRandomSeed` is set. -/
def applySeededParams (env : ApplyEnv α) (t : curtTracer α) : curtLaunchParams α :=
  if t.useRandomSeed then { applyLaunchParams env t with seed := env.randomSeed }
  else applyLaunchParams env t

/-- The state of the tracer at line 99 of curtTracer.hpp, before the loop
over the particles: geometry built, cell data allocated, result buffer
allocated and initialised with `T(0)`, seed drawn, ray grid computed. -/
def applyPrepared [LinearOrderedField α] (sizeofT : Nat) (env : ApplyEnv α)
    (t : curtTracer α) : curtTracer α :=
  { t with launchParams := applySeededParams env t, geometryValid := true,
           cellDataBuffer := applyCellData sizeofT env t,
           resultBuffer := List.replicate (applyResultCount env t) 0,
           numberOfRaysPerPoint := applyRaysPerPoint t,
           numRays := applyNumRays env t }

/-- Function `apply()` (curtTracer.hpp, lines 59-137). Returns the calls issued
and the state after `normalize()`; the state is `none` when an `assert`
stops the run. A failed assertion on the cell data stops the run before
the result buffer is allocated. -/
def curtTracer.apply [LinearOrderedField α] (sizeofT : Nat) (env : ApplyEnv α)
    (t : curtTracer α) : List (ApplyEvent α) × Option (curtTracer α) :=
  let ev0 : List (ApplyEvent α) :=
    if t.geometryValid then [] else [ApplyEvent.buildAccel]
  if (applyCellData sizeofT env t).sizeInBytes / sizeofT ≠ applyCellCount env t then
    (ev0, none)
  else
    let t0 := applyPrepared sizeofT env t
    let ev1 : List (ApplyEvent α) :=
      if t0.numRays > 536870912 then [ApplyEvent.tooManyRays t0.numRays] else []
    let r := launchLoop env (toUInt (applyPointsPerDim env t))
      (toUInt (applyPointsPerDim env t)) (toUInt t0.numberOfRaysPerPoint)
      t0.particles 0 t0.launchParams t0.resultBuffer
    let t1 : curtTracer α := { t0 with launchParams := r.2.1, resultBuffer := r.2.2 }
    (ev0 ++ ev1 ++ r.1 ++ [ApplyEvent.cudaDeviceSynchronize, ApplyEvent.normalize],
      t1.normalize)

/-- An example of the collaborators of `apply()`: the geometry provider
leaves the launch parameters as they are, the drawn seed is `7`, and every
launch adds `1` to every entry of the result buffer. -/
def exampleEnv : ApplyEnv ℚ :=
  { buildAccelFromDomain := fun lp => lp, randomSeed := 7,
    launchContribution := fun _ _ _ _ _ _ => 1 }

/-- Modelled from the spec: `lsPointData<T>` of the level set library (not
part of the sources at hand): named scalar fields in the order of
insertion, each a label and a vector of values. -/
structure lsPointData (α : Type) where
  scalarData : List (String × List α)

/-- Modelled from the spec: `getScalarData(name)` of `lsPointData` finds the
first field with the label `name`; `none` is the null pointer. -/
def lsPointData.getScalarData (pd : lsPointData α) (name : String) :
    Option (List α) :=
  (pd.scalarData.find? (fun f => f.1 == name)).map (fun f => f.2)

/-- Modelled from the spec: `insertNextScalarData(values, name)` of
`lsPointData` appends a field. -/
def lsPointData.insertNextScalarData (pd : lsPointData α) (values : List α)
    (name : String) : lsPointData α :=
  ⟨pd.scalarData ++ [(name, values)]⟩

/-- A write through the pointer returned by `getScalarData(name)`: the
values of the first field with the label `name` are replaced. -/
def setScalarData (name : String) (values : List α) :
    List (String × List α) → List (String × List α)
  | [] => []
  | f :: fs =>
    if f.1 == name then (f.1, values) :: fs else f :: setScalarData name values fs

/-- Modelled from the spec: `std::vector::resize(n)`, which cuts the vector
or fills it up with `T(0)`. -/
def vectorResize [LinearOrderedField α] (values : List α) (n : Nat) : List α :=
  values.take n ++ List.replicate (n - values.length) 0

/-- Modelled from the spec: `std::memcpy(dst, src, n * sizeof(T))`, with
`src` the values from the source address on: the first `n` of them
overwrite the front of `dst`. -/
def memcpyValues (dst src : List α) (n : Nat) : List α :=
  src.take n ++ dst.drop (src.take n).length

/-- The body of the inner loop of `downloadResultsToPointData` (curtTracer.hpp,
lines 320-333) for one copy: the field of that name is looked up, created
with `numPoints` zeros when missing, resized to `numPoints` when its size
differs, and overwritten with the `numPoints` values of `temp` from the
element offset of the copy on. The result is `none` when the label index is
past the end of `dataLabels`. -/
def downloadField [LinearOrderedField α] (numPoints : Nat) (temp : List α)
    (pd : lsPointData α) (c : ChannelCopy) : Option (lsPointData α) :=
  match c.name with
  | none => none
  | some name =>
    let pd1 := if (pd.getScalarData name).isNone then
        pd.insertNextScalarData (List.replicate numPoints 0) name
      else pd
    let values := (pd1.getScalarData name).getD []
    let values1 := if values.length ≠ numPoints then vectorResize values numPoints
      else values
    some ⟨setScalarData name (memcpyValues values1 (temp.drop c.start) numPoints)
      pd1.scalarData⟩

/-- Function `downloadResultsToPointData(pointData, valueBuffer, numPoints)`
(curtTracer.hpp, lines 282-310). `temp` receives the first
`numPoints * numRates` values of `valueBuffer`. -/
def downloadResultsToPointDataFrom [LinearOrderedField α] (t : curtTracer α)
    (pointData : lsPointData α) (valueBuffer : List α) (numPoints : Nat) :
    Option (lsPointData α) :=
  let temp := valueBuffer.take ((numPoints * t.numRates) % UINT_RANGE)
  (downloadCopies numPoints t.particles 0).foldlM (downloadField numPoints temp)
    pointData

/-- Function `downloadResultsToPointData(pointData)` (curtTracer.hpp, lines
312-339): the same loops over the result buffer with
`numPoints = launchParams.numElements`. -/
def downloadResultsToPointData [LinearOrderedField α] (t : curtTracer α)
    (pointData : lsPointData α) : Option (lsPointData α) :=
  let numPoints := t.launchParams.numElements
  let temp := t.resultBuffer.take ((numPoints * t.numRates) % UINT_RANGE)
  (downloadCopies numPoints t.particles 0).foldlM (downloadField numPoints temp)
    pointData

/-- The labels of the channels in channel order: for every species in
registration order its first `numberOfData` labels. -/
def channelLabels (particles : List (curtParticle α)) : List String :=
  particles.flatMap (fun p => p.dataLabels.take p.numberOfData)

/-- An example species with `n` output channels and the given labels. -/
def exampleParticle (n : Nat) (labels : List String) : curtParticle ℚ :=
  { name := "species", numberOfData := n, sticking := 1, cosineExponent := 1,
    meanIonEnergy := 0, sigmaIonEnergy := 0, A_O := 0, dataLabels := labels }

/-- An example tracer state over the rationals: the given species, element
count, channel count, result buffer and ray count, a source plane with the
corners `(0, 0)` and `(width, height)`, and the default values of
curtTracer.hpp for the remaining members. -/
def exampleTracer (particles : List (curtParticle ℚ)) (numElements numRates : Nat)
    (resultBuffer : List ℚ) (numRays : Nat) (width height : ℚ) : curtTracer ℚ :=
  { particles := particles, dataPerParticle := [], numRates := numRates,
    cellDataBuffer := ⟨0, []⟩, sbts := 0,
    launchParams :=
      { numElements := numElements, seed := 0, periodicBoundary := false,
        source := { minPoint := ⟨0, 0⟩, maxPoint := ⟨width, height⟩, gridDelta := 1 },
        cosineExponent := 1, sticking := 1, meanIonEnergy := 0,
        sigmaIonEnergy := 0, A_O := 0 },
    resultBuffer := resultBuffer, geometryValid := false, useRandomSeed := false,
    numCellData := 0, numberOfRaysPerPoint := 3000, numberOfRaysFixed := 0,
    numRays := numRays }

end Tracer

/-! ### Materials (psMaterials.hpp) -/

/-- The scoped enumeration `psMaterial` (psMaterials.hpp, lines 6-27). Its
underlying type is `int`, so a value of the type is any `int`; the
enumerators are the constants below. -/
structure psMaterial where
  value : Int
deriving DecidableEq

namespace psMaterial

/-- Enumerator `Undefined = -1`. -/
def Undefined : psMaterial := ⟨-1⟩
/-- Enumerator `Mask = 0`. -/
def Mask : psMaterial := ⟨0⟩
/-- Enumerator `Si = 1`. -/
def Si : psMaterial := ⟨1⟩
/-- Enumerator `SiO2 = 2`. -/
def SiO2 : psMaterial := ⟨2⟩
/-- Enumerator `Si3N4 = 3`. -/
def Si3N4 : psMaterial := ⟨3⟩
/-- Enumerator `SiN = 4`. -/
def SiN : psMaterial := ⟨4⟩
/-- Enumerator `SiON = 5`. -/
def SiON : psMaterial := ⟨5⟩
/-- Enumerator `SiC = 6`. -/
def SiC : psMaterial := ⟨6⟩
/-- Enumerator `SiGe = 7`. -/
def SiGe : psMaterial := ⟨7⟩
/-- Enumerator `PolySi = 8`. -/
def PolySi : psMaterial := ⟨8⟩
/-- Enumerator `GaN = 9`. -/
def GaN : psMaterial := ⟨9⟩
/-- Enumerator `W = 10`. -/
def W : psMaterial := ⟨10⟩
/-- Enumerator `Al2O3 = 11`. -/
def Al2O3 : psMaterial := ⟨11⟩
/-- Enumerator `TiN = 12`. -/
def TiN : psMaterial := ⟨12⟩
/-- Enumerator `Cu = 13`. -/
def Cu : psMaterial := ⟨13⟩
/-- Enumerator `Polymer = 14`. -/
def Polymer : psMaterial := ⟨14⟩
/-- Enumerator `Dielectric = 15`. -/
def Dielectric : psMaterial := ⟨15⟩
/-- Enumerator `Metal = 16`. -/
def Metal : psMaterial := ⟨16⟩
/-- Enumerator `Air = 17`. -/
def Air : psMaterial := ⟨17⟩
/-- Enumerator `GAS = 18`. -/
def GAS : psMaterial := ⟨18⟩

/-- The enumerators of `psMaterial` in the order of declaration. -/
def enumerators : List psMaterial :=
  [Undefined, Mask, Si, SiO2, Si3N4, SiN, SiON, SiC, SiGe, PolySi, GaN, W, Al2O3,
   TiN, Cu, Polymer, Dielectric, Metal, Air, GAS]

end psMaterial

namespace psMaterialMap

/-- Function `mapToMaterial(const int matId)` (psMaterials.hpp, lines 50-54);
`static_cast<psMaterial>(matId)` is the value `matId` of the enumeration. -/
def mapToMaterial (matId : Int) : psMaterial :=
  if matId > 17 ∨ matId < -1 then psMaterial.Undefined else ⟨matId⟩

/-- Function `isMaterial(matId, material)` (psMaterials.hpp, lines 60-63) for an
`int` argument. -/
def isMaterial (matId : Int) (material : psMaterial) : Bool :=
  mapToMaterial matId == material

/-- Function `insertNextMaterial(material)` (psMaterials.hpp, lines 35-37).
Modelled from the spec: the `lsMaterialMap` of the level set library is the
list of the material ids of its layers. -/
def insertNextMaterial (map : List Int) (material : psMaterial) : List Int :=
  map ++ [material.value]

/-- Function `getMaterialAtIdx(idx)` (psMaterials.hpp, lines 39-44) on the list
of the material ids of the layers. -/
def getMaterialAtIdx (map : List Int) (idx : Nat) : psMaterial :=
  if idx ≥ map.length then psMaterial.GAS
  else mapToMaterial (map.getD idx 0)

end psMaterialMap

/-! ## Part 2: theorems -/

section ReflectionTheorems

variable {α : Type} [LinearOrderedField α]

/-- C1: `specularReflection(prd, n)` sets the new direction to
`dir - 2 (dir·n) n` and the new position to `pos + tmax * dir` with the
incoming direction `dir`; the random stream is untouched. -/
theorem specularReflection_spec (tmax : α) (prd : PerRayData α) (n : vec3 α) :
    (specularReflection tmax prd n).dir
        = vec3.sub prd.dir (vec3.smul (2 * dot prd.dir n) n) ∧
      (specularReflection tmax prd n).pos
        = vec3.add prd.pos (vec3.smul tmax prd.dir) ∧
      (specularReflection tmax prd n).RNGstate = prd.RNGstate :=
  ⟨rfl, rfl, rfl⟩

/-- C2: for a unit normal `n` the specular output direction has the same
squared length as the incoming direction, `d'·d' = d·d`. -/
theorem specularReflection_norm_preserving (tmax : α) (prd : PerRayData α)
    (n : vec3 α) (hn : dot n n = 1) :
    dot (specularReflection tmax prd n).dir (specularReflection tmax prd n).dir
      = dot prd.dir prd.dir := by
  simp only [specularReflection, dot, vec3.sub, vec3.smul] at *
  linear_combination
    (4 * (prd.dir.x * n.x + prd.dir.y * n.y + prd.dir.z * n.z) ^ 2) * hn

/-- Witness of C2: the ray direction `(1, 2, 3)` mirrored at the unit
normal `(0, 0, 1)` over the rationals. -/
theorem specularReflection_norm_preserving_witness :
    dot (⟨0, 0, 1⟩ : vec3 ℚ) ⟨0, 0, 1⟩ = 1 ∧
    dot (specularReflection 1 ⟨⟨0, 0, 0⟩, ⟨1, 2, 3⟩, ⟨fun _ => 0, 0⟩⟩
          (⟨0, 0, 1⟩ : vec3 ℚ)).dir
        (specularReflection 1 ⟨⟨0, 0, 0⟩, ⟨1, 2, 3⟩, ⟨fun _ => 0, 0⟩⟩
          (⟨0, 0, 1⟩ : vec3 ℚ)).dir
      = dot (⟨1, 2, 3⟩ : vec3 ℚ) ⟨1, 2, 3⟩ :=
  ⟨by norm_num [dot],
   specularReflection_norm_preserving 1 ⟨⟨0, 0, 0⟩, ⟨1, 2, 3⟩, ⟨fun _ => 0, 0⟩⟩
     ⟨0, 0, 1⟩ (by norm_num [dot])⟩

/-- C3: for a unit normal `n` the specular output direction `d'` satisfies
`d'·n = (-d)·n`, and `d'` is as long as `-d`; so the angle between `d'` and
`n` equals the angle between the reversed incoming direction and `n`. -/
theorem specularReflection_reflection_law (tmax : α) (prd : PerRayData α)
    (n : vec3 α) (hn : dot n n = 1) :
    dot (specularReflection tmax prd n).dir n = dot (vec3.neg prd.dir) n ∧
    dot (specularReflection tmax prd n).dir (specularReflection tmax prd n).dir
      = dot (vec3.neg prd.dir) (vec3.neg prd.dir) := by
  simp only [specularReflection, dot, vec3.sub, vec3.smul, vec3.neg] at *
  constructor
  · linear_combination
      (-2 * (prd.dir.x * n.x + prd.dir.y * n.y + prd.dir.z * n.z)) * hn
  · linear_combination
      (4 * (prd.dir.x * n.x + prd.dir.y * n.y + prd.dir.z * n.z) ^ 2) * hn

/-- Witness of C3: the ray direction `(1, 2, -3)` mirrored at the unit
normal `(0, 0, 1)` over the rationals. -/
theorem specularReflection_reflection_law_witness :
    dot (⟨0, 0, 1⟩ : vec3 ℚ) ⟨0, 0, 1⟩ = 1 ∧
    (dot (specularReflection 2 ⟨⟨0, 0, 5⟩, ⟨1, 2, -3⟩, ⟨fun _ => 0, 0⟩⟩
          (⟨0, 0, 1⟩ : vec3 ℚ)).dir ⟨0, 0, 1⟩
        = dot (vec3.neg (⟨1, 2, -3⟩ : vec3 ℚ)) ⟨0, 0, 1⟩ ∧
     dot (specularReflection 2 ⟨⟨0, 0, 5⟩, ⟨1, 2, -3⟩, ⟨fun _ => 0, 0⟩⟩
          (⟨0, 0, 1⟩ : vec3 ℚ)).dir
        (specularReflection 2 ⟨⟨0, 0, 5⟩, ⟨1, 2, -3⟩, ⟨fun _ => 0, 0⟩⟩
          (⟨0, 0, 1⟩ : vec3 ℚ)).dir
        = dot (vec3.neg (⟨1, 2, -3⟩ : vec3 ℚ)) (vec3.neg ⟨1, 2, -3⟩)) :=
  ⟨by norm_num [dot],
   specularReflection_reflection_law 2 ⟨⟨0, 0, 5⟩, ⟨1, 2, -3⟩, ⟨fun _ => 0, 0⟩⟩
     ⟨0, 0, 1⟩ (by norm_num [dot])⟩

/-- The outer rejection loop of `conedCosineReflection` only returns a
candidate whose inner product with the normal is positive. -/
theorem conedLoop_dot_pos (m : FloatMath α) (avg : α) (n dir : vec3 α) :
    ∀ (fuel : Nat) (s : curtRNGState α) (res : vec3 α × curtRNGState α),
      conedLoop m avg n dir fuel s = some res → 0 < dot res.1 n := by
  intro fuel
  induction fuel with
  | zero => intro s res h; simp [conedLoop] at h
  | succ k ih =>
    intro s res h
    rw [conedLoop] at h
    cases hp : polarLoop m avg (k + 1) s with
    | none => simp [hp] at h
    | some pol =>
      simp only [hp] at h
      cases ha : azimuthLoop (k + 1) pol.rng with
      | none => simp [ha] at h
      | some az =>
        simp only [ha] at h
        split_ifs at h with hc
        · exact ih _ _ h
        · cases h
          exact lt_of_not_ge hc

/-- C4: every terminating run of `conedCosineReflection`, for any math
library, random stream, incoming ray, normal and average angle, ends with
`dot(direction_out, normal) > 0`. -/
theorem conedCosineReflection_dot_pos (m : FloatMath α) (tmax : α) (fuel : Nat)
    (prd prd' : PerRayData α) (avgReflAngle : α) (n : vec3 α)
    (h : conedCosineReflection m tmax fuel prd avgReflAngle n = some prd') :
    0 < dot prd'.dir n := by
  unfold conedCosineReflection at h
  cases hl : conedLoop m avgReflAngle n (specularReflection tmax prd n).dir fuel
      (specularReflection tmax prd n).RNGstate with
  | none => simp [hl] at h
  | some res =>
    simp only [hl] at h
    cases h
    exact conedLoop_dot_pos m avgReflAngle n _ fuel _ res hl

/-- Witness of C4: over the reals with the real `sqrt`, `cos`, `sin`, a ray
going straight down onto the normal `(0, 0, 1)` with the draws
`1, 1/2, 3/4, 1/2` is accepted in the first iteration with the direction
`(0, 0, 1)`. -/
theorem conedCosineReflection_dot_pos_witness :
    conedCosineReflection ⟨Real.sqrt, Real.cos, Real.sin, Real.cos, Real.pi⟩ 1 1
        ⟨⟨0, 0, 1⟩, ⟨0, 0, -1⟩,
          ⟨fun k => if k = 2 then 3 / 4 else if k = 0 then 1 else 1 / 2, 0⟩⟩
        (1 / 2) ⟨0, 0, 1⟩
      = some ⟨⟨0, 0, 0⟩, ⟨0, 0, 1⟩,
          ⟨fun k => if k = 2 then 3 / 4 else if k = 0 then 1 else 1 / 2, 4⟩⟩ ∧
    0 < dot (⟨0, 0, 1⟩ : vec3 ℝ) ⟨0, 0, 1⟩ :=
  have h : conedCosineReflection ⟨Real.sqrt, Real.cos, Real.sin, Real.cos, Real.pi⟩ 1 1
        ⟨⟨0, 0, 1⟩, ⟨0, 0, -1⟩,
          ⟨fun k => if k = 2 then 3 / 4 else if k = 0 then 1 else 1 / 2, 0⟩⟩
        (1 / 2) ⟨0, 0, 1⟩
      = some ⟨⟨0, 0, 0⟩, ⟨0, 0, 1⟩,
          ⟨fun k => if k = 2 then 3 / 4 else if k = 0 then 1 else 1 / 2, 4⟩⟩ := by
    simp [conedCosineReflection, conedLoop, polarLoop, azimuthLoop, rotate,
      specularReflection, getNextRand, dot, vec3.add, vec3.sub, vec3.smul]
    norm_num
  ⟨h, conedCosineReflection_dot_pos _ 1 1 _ _ (1 / 2) ⟨0, 0, 1⟩ h⟩

end ReflectionTheorems

section RealReflectionTheorems

/-- The sampler `PickRandomPointOnUnitSphere` returns a point of the unit sphere when
`sqrtf` is the real square root. -/
theorem PickRandomPointOnUnitSphere_unit (m : FloatMath ℝ)
    (hm : m.sqrtf = Real.sqrt) :
    ∀ (fuel : Nat) (s : curtRNGState ℝ) (res : vec3 ℝ × curtRNGState ℝ),
      PickRandomPointOnUnitSphere m fuel s = some res → dot res.1 res.1 = 1 := by
  intro fuel
  induction fuel with
  | zero => intro s res h; simp [PickRandomPointOnUnitSphere] at h
  | succ k ih =>
    intro s res h
    rw [PickRandomPointOnUnitSphere] at h
    split_ifs at h with hc
    · exact ih _ _ h
    · cases h
      simp only [hm, dot]
      set x := 2 * (curand_uniform s).1 - 1 with hx
      set y := 2 * (curand_uniform (curand_uniform s).2).1 - 1 with hy
      have hr : 0 ≤ 1 - (x * x + y * y) := by linarith [not_le.mp hc]
      have hq := Real.mul_self_sqrt hr
      linear_combination (4 * (x * x + y * y)) * hq

/-- A vector whose inner product with itself vanishes is the zero vector. -/
theorem vec3_eq_zero_of_dot_self {α : Type} [LinearOrderedField α] (v : vec3 α)
    (h : dot v v = 0) : v = ⟨0, 0, 0⟩ := by
  simp only [dot] at h
  have hx : v.x = 0 := by
    nlinarith [mul_self_nonneg v.x, mul_self_nonneg v.y, mul_self_nonneg v.z]
  have hy : v.y = 0 := by
    nlinarith [mul_self_nonneg v.x, mul_self_nonneg v.y, mul_self_nonneg v.z]
  have hz : v.z = 0 := by
    nlinarith [mul_self_nonneg v.x, mul_self_nonneg v.y, mul_self_nonneg v.z]
  ext <;> assumption

/-- Counterexample to C5 as stated: for the unit normal `(0, 0, -1)` and the
draws `1/2, 1/2` the sampler accepts `x = y = 0` and returns the sphere
point `(0, 0, 1)`; `geoNormal + randomDirection` is the zero vector, its
normalisation has no positive inner product with the normal. -/
theorem diffuseReflection_opposite_point :
    dot (⟨0, 0, -1⟩ : vec3 ℝ) ⟨0, 0, -1⟩ = 1 ∧
    PickRandomPointOnUnitSphere ⟨Real.sqrt, Real.cos, Real.sin, Real.cos, Real.pi⟩ 1
        ⟨fun _ => 1 / 2, 0⟩
      = some (⟨0, 0, 1⟩, ⟨fun _ => 1 / 2, 2⟩) ∧
    (diffuseReflection ⟨Real.sqrt, Real.cos, Real.sin, Real.cos, Real.pi⟩ 1
        ⟨0, 0, -1⟩ 1 ⟨⟨0, 0, 1⟩, ⟨0, 0, -1⟩, ⟨fun _ => 1 / 2, 0⟩⟩).map
          (fun p => p.dir)
      = some ⟨0, 0, 0⟩ ∧
    ¬ 0 < dot (⟨0, 0, 0⟩ : vec3 ℝ) ⟨0, 0, -1⟩ := by
  refine ⟨by norm_num [dot], ?_, ?_, by norm_num [dot]⟩
  · norm_num [PickRandomPointOnUnitSphere, curand_uniform]
  · norm_num [diffuseReflection, PickRandomPointOnUnitSphere, curand_uniform,
      gdt.normalize, dot, vec3.add, vec3.smul]

/-- C5 (amended): for a unit normal `n` and a point `s` returned by
`PickRandomPointOnUnitSphere` with `n + s ≠ 0`, `diffuseReflection` returns
the direction `normalize(n + s)`, and `dot(direction_out, normal) > 0`. -/
theorem diffuseReflection_dot_pos (m : FloatMath ℝ) (hm : m.sqrtf = Real.sqrt)
    (tmax : ℝ) (n : vec3 ℝ) (hn : dot n n = 1) (fuel : Nat) (prd : PerRayData ℝ)
    (s : vec3 ℝ) (rng : curtRNGState ℝ)
    (hs : PickRandomPointOnUnitSphere m fuel prd.RNGstate = some (s, rng))
    (hne : vec3.add n s ≠ ⟨0, 0, 0⟩) :
    (diffuseReflection m tmax n fuel prd).map (fun p => p.dir)
      = some (gdt.normalize m (vec3.add n s)) ∧
    0 < dot (gdt.normalize m (vec3.add n s)) n := by
  have hu : dot s s = 1 := PickRandomPointOnUnitSphere_unit m hm fuel _ _ hs
  refine ⟨by simp only [diffuseReflection, hs]; rfl, ?_⟩
  have hvv : 0 < dot (vec3.add n s) (vec3.add n s) := by
    rcases (lt_or_eq_of_le (show 0 ≤ dot (vec3.add n s) (vec3.add n s) by
      simp only [dot]
      exact add_nonneg (add_nonneg (mul_self_nonneg _) (mul_self_nonneg _))
        (mul_self_nonneg _))) with h | h
    · exact h
    · exact absurd (vec3_eq_zero_of_dot_self _ h.symm) hne
  have hsq : 0 < Real.sqrt (dot (vec3.add n s) (vec3.add n s)) :=
    Real.sqrt_pos.mpr hvv
  have hkey : dot (vec3.add n s) n = dot (vec3.add n s) (vec3.add n s) / 2 := by
    simp only [dot, vec3.add] at *
    linear_combination (1 / 2 : ℝ) * hn - (1 / 2 : ℝ) * hu
  have hsplit : dot (gdt.normalize m (vec3.add n s)) n
      = (1 / Real.sqrt (dot (vec3.add n s) (vec3.add n s)))
          * dot (vec3.add n s) n := by
    simp only [gdt.normalize, hm, dot, vec3.smul]
    ring
  rw [hsplit, hkey]
  positivity

/-- Witness of C5 (amended): normal `(0, 0, 1)` and the draws `1/2, 1/2`,
which give the sphere point `(0, 0, 1)`. -/
theorem diffuseReflection_dot_pos_witness :
    (diffuseReflection ⟨Real.sqrt, Real.cos, Real.sin, Real.cos, Real.pi⟩ 1
        ⟨0, 0, 1⟩ 1 ⟨⟨0, 0, 1⟩, ⟨0, 0, -1⟩, ⟨fun _ => 1 / 2, 0⟩⟩).map
          (fun p => p.dir)
      = some (gdt.normalize ⟨Real.sqrt, Real.cos, Real.sin, Real.cos, Real.pi⟩
          (vec3.add ⟨0, 0, 1⟩ ⟨0, 0, 1⟩)) ∧
    0 < dot (gdt.normalize ⟨Real.sqrt, Real.cos, Real.sin, Real.cos, Real.pi⟩
          (vec3.add ⟨0, 0, 1⟩ ⟨0, 0, 1⟩)) ⟨0, 0, 1⟩ :=
  diffuseReflection_dot_pos _ rfl 1 ⟨0, 0, 1⟩ (by norm_num [dot]) 1
    ⟨⟨0, 0, 1⟩, ⟨0, 0, -1⟩, ⟨fun _ => 1 / 2, 0⟩⟩ ⟨0, 0, 1⟩ ⟨fun _ => 1 / 2, 2⟩
    (by norm_num [PickRandomPointOnUnitSphere, curand_uniform])
    (by norm_num [vec3.add])

/-- C6: with the real square root, every polar sample that the inner loop of
`conedCosineReflection` accepts has `angle = avgReflAngle * sqrt(1 - u)`
with `u = sqrt(draw)` for a draw of the stream, and for a non-negative
average angle (in particular one in `(0, π/2)`) and draws in `[0, 1]` the
angle lies in `[0, avgReflAngle]`. -/
theorem polarLoop_angle_mem (m : FloatMath ℝ) (hm : m.sqrtf = Real.sqrt)
    (avgReflAngle : ℝ) (h0 : 0 < avgReflAngle) (_h1 : avgReflAngle < Real.pi / 2)
    (fuel : Nat) (s : curtRNGState ℝ)
    (hdraws : ∀ k, 0 ≤ s.draws k ∧ s.draws k ≤ 1) (pol : PolarSample ℝ)
    (h : polarLoop m avgReflAngle fuel s = some pol) :
    (∃ k, s.pos ≤ k ∧ pol.u = Real.sqrt (s.draws k)) ∧
    pol.angle = avgReflAngle * Real.sqrt (1 - pol.u) ∧
    0 ≤ pol.angle ∧ pol.angle ≤ avgReflAngle := by
  induction fuel generalizing s with
  | zero => simp [polarLoop] at h
  | succ k ih =>
    rw [polarLoop] at h
    split_ifs at h with hc
    · obtain ⟨⟨j, hj, hu⟩, hrest⟩ :=
        ih (getNextRand (getNextRand s).2).2 hdraws h
      refine ⟨⟨j, ?_, hu⟩, hrest⟩
      simp only [getNextRand] at hj
      omega
    · cases h
      rw [hm]
      have hle : Real.sqrt (1 - Real.sqrt (getNextRand s).1) ≤ 1 := by
        rw [Real.sqrt_le_one]
        linarith [Real.sqrt_nonneg (getNextRand s).1]
      refine ⟨⟨s.pos, le_refl _, rfl⟩, rfl, ?_, ?_⟩
      · exact mul_nonneg h0.le (Real.sqrt_nonneg _)
      · calc avgReflAngle * Real.sqrt (1 - Real.sqrt (getNextRand s).1)
            ≤ avgReflAngle * 1 := mul_le_mul_of_nonneg_left hle h0.le
          _ = avgReflAngle := mul_one avgReflAngle

/-- Witness of C6: average angle `1/2` (below `π/2`) and the draws `1, 1/2`:
`u = 1`, `angle = 0`, accepted in the first iteration. -/
theorem polarLoop_angle_mem_witness :
    (∃ k, 0 ≤ k ∧ (1 : ℝ) = Real.sqrt (if k = 0 then 1 else 1 / 2)) ∧
    (0 : ℝ) = 1 / 2 * Real.sqrt (1 - 1) ∧ (0 : ℝ) ≤ 0 ∧ (0 : ℝ) ≤ 1 / 2 :=
  polarLoop_angle_mem ⟨Real.sqrt, Real.cos, Real.sin, Real.cos, Real.pi⟩ rfl
    (1 / 2) (by norm_num) (by linarith [Real.pi_gt_three]) 1
    ⟨fun k => if k = 0 then 1 else 1 / 2, 0⟩
    (by intro k; by_cases hk : k = 0 <;> norm_num [hk])
    ⟨1, 0, 0, ⟨fun k => if k = 0 then 1 else 1 / 2, 2⟩⟩
    (by norm_num [polarLoop, getNextRand])

end RealReflectionTheorems

section TracerTheorems

variable {α : Type}

/-- The sum of `numberOfData` of a list with one more species in front. -/
theorem sumNumberOfData_cons (p : curtParticle α) (ps : List (curtParticle α)) :
    sumNumberOfData (p :: ps) = p.numberOfData + sumNumberOfData ps := by
  simp [sumNumberOfData]

/-- The `unsigned int` accumulation loop computes the sum modulo `2 ^ 32`. -/
theorem accumulateRates_mod (ps : List (curtParticle α)) :
    ∀ acc : Nat, acc < UINT_RANGE →
      accumulateRates ps acc = (acc + sumNumberOfData ps) % UINT_RANGE := by
  induction ps with
  | nil =>
    intro acc h
    simp [accumulateRates, sumNumberOfData, Nat.mod_eq_of_lt h]
  | cons p ps ih =>
    intro acc _
    have hlt : (acc + p.numberOfData) % UINT_RANGE < UINT_RANGE :=
      Nat.mod_lt _ (by decide)
    have := ih _ hlt
    simp only [accumulateRates, List.foldl_cons] at this ⊢
    rw [this, sumNumberOfData_cons, Nat.mod_add_mod, Nat.add_assoc]

/-- A natural number below `2 ^ 64` is unchanged by the conversion to `size_t`. -/
theorem toSizeT_natCast (n : Nat) (h : n < 18446744073709551616) : toSizeT (n : Int) = n := by
  unfold toSizeT
  omega

/-- A natural number below `2 ^ 32` is unchanged by the conversion to `unsigned int`. -/
theorem toUInt_natCast (n : Nat) (h : n < 4294967296) : toUInt (n : Int) = n := by
  unfold toUInt
  omega

/-- A natural number below `2 ^ 31` is a value of `int`. -/
theorem wrapInt_natCast (n : Nat) (h : n < 2147483648) : wrapInt (n : Int) = n := by
  unfold wrapInt
  omega

/-- The offset loop of `getFlux`, started at index `i`, adds the `numberOfData` of the
particles with index below `particleIdx`, modulo `2 ^ 32`. -/
theorem getFluxLoop_eq (P : Nat) (pI : Int) (hP : toSizeT pI = P) (ps : List (curtParticle α)) :
    ∀ (i off : Nat), off < UINT_RANGE →
      getFluxLoop pI ps i off = (off + sumNumberOfData (ps.take (P - i))) % UINT_RANGE := by
  induction ps with
  | nil =>
    intro i off h
    simp [getFluxLoop, sumNumberOfData, Nat.mod_eq_of_lt h]
  | cons p ps ih =>
    intro i off h
    rw [getFluxLoop, hP]
    by_cases hc : P > i
    · rw [if_pos hc, ih _ _ (Nat.mod_lt _ (by decide))]
      have : P - i = (P - (i + 1)) + 1 := by omega
      rw [this, List.take_succ_cons, sumNumberOfData_cons, Nat.mod_add_mod, Nat.add_assoc]
    · rw [if_neg hc, ih _ _ h]
      have h1 : P - (i + 1) = 0 := by omega
      have h2 : P - i = 0 := by omega
      rw [h1, h2]
      simp

/-- The channel offset of the next species adds the `numberOfData` of this one. -/
theorem channelOffset_succ (ps : List (curtParticle α)) (p : Nat) (hp : p < ps.length) :
    channelOffset ps (p + 1) = channelOffset ps p + ps[p].numberOfData := by
  induction ps generalizing p with
  | nil => simp at hp
  | cons q qs ih =>
    cases p with
    | zero => simp [channelOffset, sumNumberOfData]
    | succ k =>
      have hk : k < qs.length := by simpa using hp
      have := ih k hk
      simp only [channelOffset, List.take_succ_cons, sumNumberOfData_cons] at this ⊢
      simp only [List.getElem_cons_succ]
      omega

/-- Channel offsets grow with the species index. -/
theorem channelOffset_mono (ps : List (curtParticle α)) (p q : Nat) (h : p ≤ q) :
    channelOffset ps p ≤ channelOffset ps q := by
  induction ps generalizing p q with
  | nil => simp [channelOffset, sumNumberOfData]
  | cons a as ih =>
    cases p with
    | zero => simp [channelOffset, sumNumberOfData]
    | succ k =>
      cases q with
      | zero => omega
      | succ j =>
        have := ih k j (by omega)
        simp only [channelOffset, List.take_succ_cons, sumNumberOfData_cons] at this ⊢
        omega

/-- A channel offset is at most the total number of channels. -/
theorem channelOffset_le_sum (ps : List (curtParticle α)) (p : Nat) :
    channelOffset ps p ≤ sumNumberOfData ps := by
  have := channelOffset_mono ps p (max p ps.length) (le_max_left _ _)
  have h2 : channelOffset ps (max p ps.length) = sumNumberOfData ps := by
    simp [channelOffset, List.take_of_length_le (le_max_right p ps.length)]
  omega

/-- The channel index of an in-range pair is below the total number of channels. -/
theorem channel_lt_sum (ps : List (curtParticle α)) (p d : Nat) (hp : p < ps.length)
    (hd : d < ps[p].numberOfData) : channelOffset ps p + d < sumNumberOfData ps := by
  have h1 := channelOffset_succ ps p hp
  have h2 := channelOffset_le_sum ps (p + 1)
  omega

/-- In-range pairs with the same channel index are equal. -/
theorem channel_injective (ps : List (curtParticle α)) (p1 d1 p2 d2 : Nat)
    (hp1 : p1 < ps.length) (hd1 : d1 < ps[p1].numberOfData)
    (hp2 : p2 < ps.length) (hd2 : d2 < ps[p2].numberOfData)
    (h : channelOffset ps p1 + d1 = channelOffset ps p2 + d2) : p1 = p2 ∧ d1 = d2 := by
  rcases Nat.lt_trichotomy p1 p2 with hlt | heq | hgt
  · have h1 := channelOffset_succ ps p1 hp1
    have h2 := channelOffset_mono ps (p1 + 1) p2 hlt
    omega
  · subst heq
    exact ⟨rfl, by omega⟩
  · have h1 := channelOffset_succ ps p2 hp2
    have h2 := channelOffset_mono ps (p2 + 1) p1 hgt
    omega

/-- Without overflow the channel index of `getFlux` is the channel offset of the species
plus `dataIdx`. -/
theorem getFluxChannel_eq (ps : List (curtParticle α)) (p d : Nat)
    (hp : p < ps.length) (hd : d < ps[p].numberOfData)
    (hpInt : p < 2147483648) (hsum : sumNumberOfData ps < UINT_RANGE) :
    getFluxChannel ps (p : Int) (d : Int) = channelOffset ps p + d := by
  have hlt := channel_lt_sum ps p d hp hd
  have hU : UINT_RANGE = 4294967296 := rfl
  have hd32 : d < 4294967296 := by omega
  unfold getFluxChannel
  rw [getFluxLoop_eq p (p : Int) (toSizeT_natCast p (by omega)) ps 0 0 (by decide),
    toUInt_natCast d hd32]
  simp only [Nat.zero_add, Nat.sub_zero, Nat.mod_add_mod]
  exact Nat.mod_eq_of_lt (by unfold channelOffset at hlt; omega)

/-- Without overflow the download loops visit the channel indices `k, k + 1, …` in order,
each with the element offset `tmpOffset * numPoints`. -/
theorem downloadCopies_offsets (numPoints : Nat) (ps : List (curtParticle α)) :
    ∀ (k : Nat), k + sumNumberOfData ps < 2147483648 →
      (k + sumNumberOfData ps) * numPoints < UINT_RANGE →
      (downloadCopies numPoints ps (k : Int)).map (fun c => (c.tmpOffset, c.start))
        = (List.range' k (sumNumberOfData ps)).map
            (fun (c : Nat) => ((c : Int), c * numPoints)) := by
  induction ps with
  | nil => intro k _ _; simp [downloadCopies, sumNumberOfData]
  | cons p ps ih =>
    intro k hk hm
    rw [sumNumberOfData_cons] at hk hm
    have hw : wrapInt ((k : Int) + (p.numberOfData : Int))
        = ((k + p.numberOfData : Nat) : Int) := by
      rw [← Nat.cast_add]; exact wrapInt_natCast _ (by omega)
    rw [downloadCopies, hw, List.map_append,
      ih (k + p.numberOfData) (by omega) (by rw [Nat.add_assoc]; exact hm),
      sumNumberOfData_cons, Nat.add_comm p.numberOfData,
      ← List.range'_append_1, List.map_append]
    refine congrArg (fun l => l ++ _) ?_
    rw [List.map_map, List.range'_eq_map_range, List.map_map]
    apply List.map_congr_left
    intro d hd
    have hd' : d < p.numberOfData := by simpa using hd
    have hlt : (k + d) * numPoints < UINT_RANGE :=
      lt_of_le_of_lt (Nat.mul_le_mul_right _ (by omega)) hm
    simp only [Function.comp]
    rw [← Nat.cast_add, wrapInt_natCast _ (by omega), toUInt_natCast _ (by omega),
      Nat.mod_eq_of_lt hlt]

/-- Without overflow the copy that the download loops issue for the in-range pair
`(p, d)` is the one at position `channelOffset p + d`; it carries the label
`dataLabels[d]` and that channel index. -/
theorem downloadCopies_getElem (numPoints : Nat) (ps : List (curtParticle α)) :
    ∀ (k p d : Nat) (hp : p < ps.length), d < ps[p].numberOfData →
      k + sumNumberOfData ps < 2147483648 →
      (k + sumNumberOfData ps) * numPoints < UINT_RANGE →
      (downloadCopies numPoints ps (k : Int))[channelOffset ps p + d]?
        = some ⟨ps[p].dataLabels[d]?, ((k + channelOffset ps p + d : Nat) : Int),
            (k + channelOffset ps p + d) * numPoints⟩ := by
  induction ps with
  | nil => intro k p d hp; simp at hp
  | cons q qs ih =>
    intro k p d hp hd hk hm
    rw [sumNumberOfData_cons] at hk hm
    rw [downloadCopies]
    cases p with
    | zero =>
      have hd0 : d < q.numberOfData := by simpa using hd
      have hlt : (k + d) * numPoints < UINT_RANGE :=
        lt_of_le_of_lt (Nat.mul_le_mul_right _ (by omega)) hm
      have hc0 : channelOffset (q :: qs) 0 = 0 := by simp [channelOffset, sumNumberOfData]
      rw [hc0, Nat.zero_add, List.getElem?_append_left (by simpa using hd0),
        List.getElem?_map, List.getElem?_range hd0]
      simp only [Option.map_some', List.getElem_cons_zero, Nat.add_zero]
      rw [← Nat.cast_add, wrapInt_natCast _ (by omega), toUInt_natCast _ (by omega),
        Nat.mod_eq_of_lt hlt]
    | succ j =>
      have hj : j < qs.length := by simpa using hp
      have hdj : d < qs[j].numberOfData := by simpa using hd
      have hk2 : k + q.numberOfData + sumNumberOfData qs < 2147483648 := by
        rw [Nat.add_assoc]; exact hk
      have hm2 : (k + q.numberOfData + sumNumberOfData qs) * numPoints < UINT_RANGE := by
        rw [Nat.add_assoc]; exact hm
      have hkq : k + q.numberOfData < 2147483648 :=
        lt_of_le_of_lt (Nat.le_add_right _ _) hk2
      have hw : wrapInt ((k : Int) + (q.numberOfData : Int))
          = ((k + q.numberOfData : Nat) : Int) := by
        rw [← Nat.cast_add]; exact wrapInt_natCast _ hkq
      have hc : channelOffset (q :: qs) (j + 1) = q.numberOfData + channelOffset qs j := by
        simp [channelOffset, sumNumberOfData_cons]
      have hih := ih (k + q.numberOfData) j d hj hdj hk2 hm2
      rw [hw, hc, List.getElem?_append_right (by simp [Nat.add_assoc])]
      simp only [List.length_map, List.length_range]
      rw [Nat.add_assoc, Nat.add_sub_cancel_left, hih]
      simp only [List.getElem_cons_succ]
      simp only [Nat.add_assoc]

/-- Counterexample to C7 as stated: three species with `numberOfData =
2147483647` each; the `unsigned int` sum wraps around. -/
theorem prepareParticlePrograms_wraps :
    (prepareParticlePrograms (exampleTracer
        [exampleParticle 2147483647 [], exampleParticle 2147483647 [],
         exampleParticle 2147483647 []] 1 0 [] 0 1 1)).1 = 2147483645 ∧
    sumNumberOfData [exampleParticle 2147483647 [], exampleParticle 2147483647 [],
         exampleParticle 2147483647 []] = 6442450941 := by
  decide

/-- C7 (amended): `prepareParticlePrograms()` returns, and stores in
`numRates`, the sum of `numberOfData` over all registered particles reduced
modulo `2 ^ 32`; with no particles registered it returns `0`; calling it
again returns the same value, and the particle list is unchanged. -/
theorem prepareParticlePrograms_numRates (t : curtTracer α) :
    (prepareParticlePrograms t).1 = sumNumberOfData t.particles % UINT_RANGE ∧
    (prepareParticlePrograms t).2.numRates = (prepareParticlePrograms t).1 ∧
    (prepareParticlePrograms { t with particles := [] }).1 = 0 ∧
    (prepareParticlePrograms (prepareParticlePrograms t).2).1
      = (prepareParticlePrograms t).1 ∧
    (prepareParticlePrograms t).2.particles = t.particles := by
  refine ⟨?_, rfl, rfl, rfl, rfl⟩
  simp only [prepareParticlePrograms]
  rw [accumulateRates_mod _ 0 (by decide), Nat.zero_add]

/-- Counterexample to C8 as stated: four species with `numberOfData`
`2147483647, 2147483647, 2, 1` and one element. The channel of
`(particleIdx, dataIdx) = (3, 0)` is `2 ^ 32`, the `unsigned int` offset is
`0`: `getFlux` returns the slice of channel `0`, not the values from
element offset `2 ^ 32` on. -/
theorem getFlux_offset_wraps :
    getFlux (exampleTracer
        [exampleParticle 2147483647 [], exampleParticle 2147483647 [],
         exampleParticle 2 [], exampleParticle 1 []] 1 1 [7] 0 1 1) 3 0 = [7] ∧
    channelOffset [exampleParticle 2147483647 [], exampleParticle 2147483647 [],
         exampleParticle 2 [], exampleParticle 1 []] 3 = 4294967296 ∧
    (([7] : List ℚ).drop ((4294967296 + 0) * 1)).take 1 = [] ∧
    getFluxStart [exampleParticle 2 [], exampleParticle 3 []] 2147483648 1 0 = 0 := by
  decide

/-- C8 (amended): after `prepareParticlePrograms()`, on a result buffer of
`numElements * numRates` values with `numElements * Σ numberOfData < 2 ^ 32`,
for every in-range `particleIdx` (an `int`) and `dataIdx`, `getFlux` copies
exactly `numElements` values starting at element offset
`(Σ numberOfData of the preceding particles + dataIdx) * numElements`. -/
theorem getFlux_slice (t : curtTracer α) (p d : Nat)
    (hp : p < t.particles.length) (hd : d < t.particles[p].numberOfData)
    (hpInt : p < 2147483648)
    (hR : t.numRates = (prepareParticlePrograms t).1)
    (hB : t.resultBuffer.length = t.launchParams.numElements * t.numRates)
    (hov : t.launchParams.numElements * sumNumberOfData t.particles < UINT_RANGE) :
    getFlux t (p : Int) (d : Int)
      = (t.resultBuffer.drop
          ((channelOffset t.particles p + d) * t.launchParams.numElements)).take
            t.launchParams.numElements ∧
    (getFlux t (p : Int) (d : Int)).length = t.launchParams.numElements := by
  have hU : UINT_RANGE = 4294967296 := rfl
  rcases Nat.eq_zero_or_pos t.launchParams.numElements with h0 | hpos
  · simp [getFlux, h0]
  · have hc := channel_lt_sum t.particles p d hp hd
    have hS : sumNumberOfData t.particles < UINT_RANGE :=
      lt_of_le_of_lt (Nat.le_mul_of_pos_left _ hpos) hov
    have hnr : t.numRates = sumNumberOfData t.particles := by
      rw [hR]
      simp only [prepareParticlePrograms]
      rw [accumulateRates_mod _ 0 (by decide), Nat.zero_add, Nat.mod_eq_of_lt hS]
    have hmul : (channelOffset t.particles p + d + 1) * t.launchParams.numElements
        ≤ t.launchParams.numElements * sumNumberOfData t.particles := by
      rw [Nat.mul_comm]
      exact Nat.mul_le_mul_left _ hc
    have hstart : getFluxStart t.particles t.launchParams.numElements (p : Int) (d : Int)
        = (channelOffset t.particles p + d) * t.launchParams.numElements := by
      unfold getFluxStart
      rw [getFluxChannel_eq t.particles p d hp hd hpInt hS]
      apply Nat.mod_eq_of_lt
      rw [Nat.add_mul, Nat.one_mul] at hmul
      omega
    have htemp : t.resultBuffer.take
        ((t.launchParams.numElements * t.numRates) % UINT_RANGE) = t.resultBuffer := by
      rw [hnr, Nat.mod_eq_of_lt hov]
      exact List.take_of_length_le (by rw [hB, hnr])
    have heq : getFlux t (p : Int) (d : Int)
        = (t.resultBuffer.drop
            ((channelOffset t.particles p + d) * t.launchParams.numElements)).take
              t.launchParams.numElements := by
      unfold getFlux
      simp only [htemp, hstart]
    refine ⟨heq, ?_⟩
    rw [heq, List.length_take, List.length_drop, hB, hnr]
    rw [Nat.add_mul, Nat.one_mul] at hmul
    omega

/-- Witness of C8 (amended), the scenario of the specification: two species
with `numberOfData` `2` and `3`, two elements, and the result buffer
`0, 1, …, 9`; `getFlux(particleIdx = 1, dataIdx = 0)` reads from element
offset `2 * numElements = 4` on. -/
theorem getFlux_slice_witness :
    getFlux (exampleTracer [exampleParticle 2 [], exampleParticle 3 []] 2 5
        [0, 1, 2, 3, 4, 5, 6, 7, 8, 9] 0 1 1) ((1 : Nat) : Int) ((0 : Nat) : Int)
      = (([0, 1, 2, 3, 4, 5, 6, 7, 8, 9] : List ℚ).drop
          ((channelOffset [exampleParticle 2 [], exampleParticle 3 []] 1 + 0) * 2)).take 2 ∧
    (getFlux (exampleTracer [exampleParticle 2 [], exampleParticle 3 []] 2 5
        [0, 1, 2, 3, 4, 5, 6, 7, 8, 9] 0 1 1) ((1 : Nat) : Int) ((0 : Nat) : Int)).length
      = 2 :=
  getFlux_slice (exampleTracer [exampleParticle 2 [], exampleParticle 3 []] 2 5
      [0, 1, 2, 3, 4, 5, 6, 7, 8, 9] 0 1 1) 1 0 (by decide) (by decide) (by decide)
    (by decide) (by decide) (by decide)

/-- Counterexample to C9 as stated: species with `numberOfData`
`2147483647, 2147483647, 3`. The in-range pairs `(0, 0)` and `(2, 2)` get the
same channel index `0`, and the channel index `1` of `(0, 1)` is not below
`numRates = 1`. -/
theorem channel_ranges_overlap :
    getFluxChannel [exampleParticle 2147483647 [], exampleParticle 2147483647 [],
        exampleParticle 3 []] 0 0 = 0 ∧
    getFluxChannel [exampleParticle 2147483647 [], exampleParticle 2147483647 [],
        exampleParticle 3 []] 2 2 = 0 ∧
    getFluxChannel [exampleParticle 2147483647 [], exampleParticle 2147483647 [],
        exampleParticle 3 []] 0 1 = 1 ∧
    (prepareParticlePrograms (exampleTracer
        [exampleParticle 2147483647 [], exampleParticle 2147483647 [],
         exampleParticle 3 []] 1 0 [] 0 1 1)).1 = 1 := by
  decide

/-- C9 (amended): when the particle count and `Σ numberOfData` are below
`2 ^ 31` and `numElements * Σ numberOfData` is below `2 ^ 32`, two distinct
in-range pairs `(particleIdx, dataIdx)` get different channel indices in
`getFlux`, every channel index is below `numRates`, the slices of
`numElements` values read for them are disjoint and inside the
`numElements * numRates` result buffer, and `downloadResultsToPointData`
issues its copy for a pair with the same channel index and element offset,
its channel indices being `0, 1, …, numRates - 1` in this order. -/
theorem channel_ranges_disjoint (t : curtTracer α) (p1 d1 p2 d2 : Nat)
    (hlen : t.particles.length < 2147483648)
    (hsum : sumNumberOfData t.particles < 2147483648)
    (hov : t.launchParams.numElements * sumNumberOfData t.particles < UINT_RANGE)
    (hp1 : p1 < t.particles.length) (hd1 : d1 < t.particles[p1].numberOfData)
    (hp2 : p2 < t.particles.length) (hd2 : d2 < t.particles[p2].numberOfData)
    (hne : (p1, d1) ≠ (p2, d2)) :
    getFluxChannel t.particles (p1 : Int) (d1 : Int)
      ≠ getFluxChannel t.particles (p2 : Int) (d2 : Int) ∧
    getFluxChannel t.particles (p1 : Int) (d1 : Int) < (prepareParticlePrograms t).1 ∧
    getFluxStart t.particles t.launchParams.numElements (p1 : Int) (d1 : Int)
      = getFluxChannel t.particles (p1 : Int) (d1 : Int) * t.launchParams.numElements ∧
    getFluxStart t.particles t.launchParams.numElements (p2 : Int) (d2 : Int)
      = getFluxChannel t.particles (p2 : Int) (d2 : Int) * t.launchParams.numElements ∧
    (getFluxStart t.particles t.launchParams.numElements (p1 : Int) (d1 : Int)
        + t.launchParams.numElements
        ≤ getFluxStart t.particles t.launchParams.numElements (p2 : Int) (d2 : Int) ∨
      getFluxStart t.particles t.launchParams.numElements (p2 : Int) (d2 : Int)
        + t.launchParams.numElements
        ≤ getFluxStart t.particles t.launchParams.numElements (p1 : Int) (d1 : Int)) ∧
    getFluxStart t.particles t.launchParams.numElements (p1 : Int) (d1 : Int)
        + t.launchParams.numElements
      ≤ t.launchParams.numElements * (prepareParticlePrograms t).1 ∧
    (downloadCopies t.launchParams.numElements t.particles 0)[
        getFluxChannel t.particles (p1 : Int) (d1 : Int)]?
      = some ⟨t.particles[p1].dataLabels[d1]?,
          (getFluxChannel t.particles (p1 : Int) (d1 : Int) : Int),
          getFluxStart t.particles t.launchParams.numElements (p1 : Int) (d1 : Int)⟩ ∧
    (downloadCopies t.launchParams.numElements t.particles 0).map
        (fun c => (c.tmpOffset, c.start))
      = (List.range (prepareParticlePrograms t).1).map
          (fun (c : Nat) => ((c : Int), c * t.launchParams.numElements)) := by
  have hU : UINT_RANGE = 4294967296 := rfl
  have hS : sumNumberOfData t.particles < UINT_RANGE := by omega
  have hnr : (prepareParticlePrograms t).1 = sumNumberOfData t.particles := by
    simp only [prepareParticlePrograms]
    rw [accumulateRates_mod _ 0 (by decide), Nat.zero_add, Nat.mod_eq_of_lt hS]
  have hc1 := getFluxChannel_eq t.particles p1 d1 hp1 hd1 (by omega) hS
  have hc2 := getFluxChannel_eq t.particles p2 d2 hp2 hd2 (by omega) hS
  have hl1 := channel_lt_sum t.particles p1 d1 hp1 hd1
  have hl2 := channel_lt_sum t.particles p2 d2 hp2 hd2
  have hmul : ∀ c, c < sumNumberOfData t.particles →
      c * t.launchParams.numElements + t.launchParams.numElements
        ≤ t.launchParams.numElements * sumNumberOfData t.particles := by
    intro c hc
    have : (c + 1) * t.launchParams.numElements
        ≤ t.launchParams.numElements * sumNumberOfData t.particles := by
      rw [Nat.mul_comm]
      exact Nat.mul_le_mul_left _ hc
    rw [Nat.add_mul, Nat.one_mul] at this
    exact this
  have hs1 : getFluxStart t.particles t.launchParams.numElements (p1 : Int) (d1 : Int)
      = (channelOffset t.particles p1 + d1) * t.launchParams.numElements := by
    unfold getFluxStart
    rw [hc1]
    exact Nat.mod_eq_of_lt (by have := hmul _ hl1; omega)
  have hs2 : getFluxStart t.particles t.launchParams.numElements (p2 : Int) (d2 : Int)
      = (channelOffset t.particles p2 + d2) * t.launchParams.numElements := by
    unfold getFluxStart
    rw [hc2]
    exact Nat.mod_eq_of_lt (by have := hmul _ hl2; omega)
  have hcne : channelOffset t.particles p1 + d1 ≠ channelOffset t.particles p2 + d2 := by
    intro h
    obtain ⟨hp, hd⟩ := channel_injective t.particles p1 d1 p2 d2 hp1 hd1 hp2 hd2 h
    exact hne (by rw [hp, hd])
  have hm0 : (0 + sumNumberOfData t.particles) * t.launchParams.numElements
      < UINT_RANGE := by
    rw [Nat.zero_add, Nat.mul_comm]; exact hov
  rw [hs1, hs2, hc1, hc2, hnr]
  refine ⟨hcne, hl1, rfl, rfl, ?_, hmul _ hl1, ?_, ?_⟩
  · rcases Nat.lt_or_gt_of_ne hcne with h | h
    · left
      have : (channelOffset t.particles p1 + d1 + 1) * t.launchParams.numElements
          ≤ (channelOffset t.particles p2 + d2) * t.launchParams.numElements :=
        Nat.mul_le_mul_right _ h
      rw [Nat.add_mul, Nat.one_mul] at this
      exact this
    · right
      have : (channelOffset t.particles p2 + d2 + 1) * t.launchParams.numElements
          ≤ (channelOffset t.particles p1 + d1) * t.launchParams.numElements :=
        Nat.mul_le_mul_right _ h
      rw [Nat.add_mul, Nat.one_mul] at this
      exact this
  · have := downloadCopies_getElem t.launchParams.numElements t.particles 0 p1 d1 hp1 hd1
      (by omega) hm0
    simpa using this
  · have := downloadCopies_offsets t.launchParams.numElements t.particles 0
      (by omega) hm0
    rw [List.range_eq_range']
    simpa using this

/-- Witness of C9 (amended): species with `numberOfData` `2` and `3` and two
elements; the pairs `(0, 1)` and `(1, 0)`. -/
theorem channel_ranges_disjoint_witness :
    getFluxChannel (exampleTracer [exampleParticle 2 ["a", "b"],
        exampleParticle 3 ["c", "d", "e"]] 2 5 [] 0 1 1).particles 0 1 = 1 ∧
    getFluxChannel (exampleTracer [exampleParticle 2 ["a", "b"],
        exampleParticle 3 ["c", "d", "e"]] 2 5 [] 0 1 1).particles 1 0 = 2 ∧
    (downloadCopies 2 [exampleParticle 2 ["a", "b"],
        exampleParticle 3 ["c", "d", "e"]] 0).map (fun c => (c.tmpOffset, c.start))
      = [(0, 0), (1, 2), (2, 4), (3, 6), (4, 8)] ∧
    (getFluxChannel [exampleParticle 2 ["a", "b"],
        exampleParticle 3 ["c", "d", "e"]] ((0 : Nat) : Int) ((1 : Nat) : Int)
      ≠ getFluxChannel [exampleParticle 2 ["a", "b"],
        exampleParticle 3 ["c", "d", "e"]] ((1 : Nat) : Int) ((0 : Nat) : Int)) :=
  ⟨by decide, by decide, by decide,
   (channel_ranges_disjoint (exampleTracer [exampleParticle 2 ["a", "b"],
        exampleParticle 3 ["c", "d", "e"]] 2 5 [] 0 1 1) 0 1 1 0
      (by decide) (by decide) (by decide) (by decide) (by decide) (by decide)
      (by decide) (by decide)).1⟩

/-- Counterexample to C10 as stated: one element, three rays, a unit source
area and the raw value `9`. One pass gives `3`, two passes give `1`, which
is not half of `3`. -/
theorem normalize_twice_not_half :
    ((exampleTracer [exampleParticle 1 ["flux"]] 1 1 [9] 3 1 1).normalize).map
        (fun r => r.resultBuffer) = some [3] ∧
    (((exampleTracer [exampleParticle 1 ["flux"]] 1 1 [9] 3 1 1).normalize).bind
        curtTracer.normalize).map (fun r => r.resultBuffer) = some [1] ∧
    ([1] : List ℚ) ≠ ([3] : List ℚ).map (fun v => v / 2) := by
  refine ⟨?_, ?_, ?_⟩
  · norm_num [curtTracer.normalize, normalize_surface, exampleTracer]
  · norm_num [curtTracer.normalize, normalize_surface, exampleTracer]
  · norm_num

/-- C10 (amended): one `normalize()` pass on a non-empty result buffer
divides every value by `numRays × numElements / sourceArea` with
`sourceArea = (maxPoint.x - minPoint.x) * (maxPoint.y - minPoint.y)`;
calling `normalize()` twice divides by that factor twice, so the second call
yields the once-normalised values divided by the factor again. -/
theorem normalize_twice [LinearOrderedField α] (t : curtTracer α) :
    (t.normalize).map (fun r => r.resultBuffer)
      = (if t.resultBuffer.length = 0 then none else
          some (t.resultBuffer.map (fun v => v /
            ((t.numRays : α) * (t.launchParams.numElements : α) /
              ((t.launchParams.source.maxPoint.x - t.launchParams.source.minPoint.x) *
               (t.launchParams.source.maxPoint.y - t.launchParams.source.minPoint.y)))))) ∧
    ((t.normalize).bind curtTracer.normalize).map (fun r => r.resultBuffer)
      = (t.normalize).map (fun r => r.resultBuffer.map (fun v => v /
            ((t.numRays : α) * (t.launchParams.numElements : α) /
              ((t.launchParams.source.maxPoint.x - t.launchParams.source.minPoint.x) *
               (t.launchParams.source.maxPoint.y - t.launchParams.source.minPoint.y))))) := by
  by_cases h : t.resultBuffer.length = 0
  · simp [curtTracer.normalize, h]
  · have h2 : ¬ (normalize_surface t.resultBuffer t.launchParams.numElements
        ((t.launchParams.source.maxPoint.x - t.launchParams.source.minPoint.x) *
         (t.launchParams.source.maxPoint.y - t.launchParams.source.minPoint.y))
        t.numRays).length = 0 := by
      simpa [normalize_surface] using h
    simp only [curtTracer.normalize, if_neg h, if_neg h2, Option.map_some',
      Option.some_bind]
    exact ⟨rfl, rfl⟩

end TracerTheorems

section ConeTheorems

variable {α : Type} [LinearOrderedField α]

/-- One iteration of the azimuthal loop: the candidate is accepted exactly
when its `temp` lies strictly between `1e-6` and `0.25`, otherwise the loop
goes on with the advanced stream. -/
theorem azimuthLoop_step (fuel : Nat) (s : curtRNGState α) :
    azimuthLoop (fuel + 1) s =
      if 1 / 1000000 < (azimuthCandidate s).temp ∧ (azimuthCandidate s).temp < 1 / 4 then
        some (azimuthCandidate s)
      else azimuthLoop fuel (azimuthCandidate s).rng := by
  rw [azimuthLoop]
  simp only [azimuthCandidate]
  split_ifs with h1 h2 h2
  · exfalso
    rcases h1 with h | h
    · exact absurd h2.2 (not_lt.mpr h)
    · exact absurd h2.1 (not_lt.mpr h)
  · rfl
  · rfl
  · exfalso; push_neg at h1; exact h2 ⟨h1.2, h1.1⟩

/-- Every sample returned by the azimuthal loop has `temp = cosphi² + sinphi²`
strictly between `1e-6` and `0.25`. -/
theorem azimuthLoop_accepts (fuel : Nat) (s : curtRNGState α) (az : AzimuthSample α)
    (h : azimuthLoop fuel s = some az) :
    az.temp = az.cosphi * az.cosphi + az.sinphi * az.sinphi ∧
    1 / 1000000 < az.temp ∧ az.temp < 1 / 4 := by
  induction fuel generalizing s with
  | zero => simp [azimuthLoop] at h
  | succ k ih =>
    rw [azimuthLoop] at h
    split_ifs at h with hc
    · exact ih _ h
    · cases h
      push_neg at hc
      exact ⟨rfl, hc.2, hc.1⟩

/-- C17: every point `(cosphi, sinphi)` accepted by the azimuthal rejection
loop of `conedCosineReflection` has squared magnitude strictly between
`1e-6` and `0.25`; an iteration exits the loop exactly when
`1e-6 < cosphi² + sinphi² < 0.25`, and both boundary values are rejected. -/
theorem azimuthLoop_exit (fuel : Nat) (s : curtRNGState α) (az : AzimuthSample α)
    (h : azimuthLoop fuel s = some az) :
    az.temp = az.cosphi * az.cosphi + az.sinphi * az.sinphi ∧
    1 / 1000000 < az.temp ∧ az.temp < 1 / 4 ∧
    (∀ (k : Nat) (s0 : curtRNGState α),
      azimuthLoop (k + 1) s0 =
        if 1 / 1000000 < (azimuthCandidate s0).temp ∧
            (azimuthCandidate s0).temp < 1 / 4 then
          some (azimuthCandidate s0)
        else azimuthLoop k (azimuthCandidate s0).rng) ∧
    (∀ (k : Nat) (s0 : curtRNGState α),
      (azimuthCandidate s0).temp = 1 / 4 ∨ (azimuthCandidate s0).temp = 1 / 1000000 →
        azimuthLoop (k + 1) s0 = azimuthLoop k (azimuthCandidate s0).rng) := by
  obtain ⟨h1, h2, h3⟩ := azimuthLoop_accepts fuel s az h
  refine ⟨h1, h2, h3, azimuthLoop_step, ?_⟩
  intro k s0 hb
  rw [azimuthLoop_step, if_neg]
  rintro ⟨hlo, hhi⟩
  rcases hb with hb | hb
  · rw [hb] at hhi; exact lt_irrefl _ hhi
  · rw [hb] at hlo; exact lt_irrefl _ hlo

/-- Witness of C17: the draws `3/4, 1/2` give `cosphi = 1/4`, `sinphi = 0`
and `temp = 1/16`, accepted in the first iteration. -/
theorem azimuthLoop_exit_witness :
    azimuthLoop 1 (⟨fun k => if k = 0 then 3 / 4 else 1 / 2, 0⟩ : curtRNGState ℚ)
      = some ⟨1 / 4, 0, 1 / 16, ⟨fun k => if k = 0 then 3 / 4 else 1 / 2, 2⟩⟩ ∧
    (1 / 1000000 : ℚ) < 1 / 16 ∧ (1 / 16 : ℚ) < 1 / 4 :=
  have h : azimuthLoop 1 (⟨fun k => if k = 0 then 3 / 4 else 1 / 2, 0⟩ : curtRNGState ℚ)
      = some ⟨1 / 4, 0, 1 / 16, ⟨fun k => if k = 0 then 3 / 4 else 1 / 2, 2⟩⟩ := by
    norm_num [azimuthLoop, getNextRand]
  ⟨h, (azimuthLoop_exit 1 _ _ h).2.1, (azimuthLoop_exit 1 _ _ h).2.2.1⟩

/-- The rotation step of `conedCosineReflection` written with `rotationA0`
and `rotationDivisor`. -/
theorem rotate_eq_divisor (m : FloatMath α) (dir : vec3 α) (costheta : α)
    (az : AzimuthSample α) :
    rotate m dir costheta az =
      (let a0 := rotationA0 dir
       let a1 := if |dir.x| ≤ |dir.y| then dir.y else dir.x
       let temp := m.sqrtf (max (1 - costheta * costheta) 0 / rotationDivisor dir az)
       let sinphi := az.sinphi * temp
       let cosphi := az.cosphi * temp
       let temp := costheta + a0 * sinphi
       let r0 := a0 * costheta - (1 - a0 * a0) * sinphi
       let r1 := a1 * temp + dir.z * cosphi
       let r2 := dir.z * temp - a1 * cosphi
       if a0 ≠ dir.x then ⟨r1, r0, r2⟩ else ⟨r0, r1, r2⟩) := rfl

/-- For a unit vector the square of `a0` is at most `1/2`. -/
theorem rotationA0_sq_le (dir : vec3 α) (hd : dot dir dir = 1) :
    rotationA0 dir * rotationA0 dir ≤ 1 / 2 := by
  simp only [dot] at hd
  unfold rotationA0
  split_ifs with h
  · have h2 := abs_le_iff_mul_self_le.mp h
    nlinarith [mul_self_nonneg dir.z]
  · have h2 := abs_le_iff_mul_self_le.mp (le_of_lt (not_le.mp h))
    nlinarith [mul_self_nonneg dir.z]

/-- The divisor of the rotation step is positive for a unit direction and an
accepted azimuthal sample. -/
theorem rotationDivisor_pos_aux (dir : vec3 α) (hd : dot dir dir = 1) (fuel : Nat)
    (s : curtRNGState α) (az : AzimuthSample α) (h : azimuthLoop fuel s = some az) :
    0 < rotationDivisor dir az := by
  have ha := rotationA0_sq_le dir hd
  obtain ⟨_, hlo, _⟩ := azimuthLoop_accepts fuel s az h
  unfold rotationDivisor
  have ht : 0 < az.temp := lt_trans (by norm_num) hlo
  exact mul_pos ht (by linarith)

/-- C20: for a unit-length specular direction and an accepted azimuthal
point, `a0² ≤ 1/2`, `1 - a0² ≥ 1/2`, `temp > 1e-6`, and the divisor
`temp * (1 - a0 * a0)` of the rotation step is strictly positive. -/
theorem rotationDivisor_pos (dir : vec3 α) (hd : dot dir dir = 1) (fuel : Nat)
    (s : curtRNGState α) (az : AzimuthSample α) (h : azimuthLoop fuel s = some az) :
    rotationA0 dir * rotationA0 dir ≤ 1 / 2 ∧
    1 / 2 ≤ 1 - rotationA0 dir * rotationA0 dir ∧
    1 / 1000000 < az.temp ∧
    0 < rotationDivisor dir az := by
  have ha := rotationA0_sq_le dir hd
  obtain ⟨_, hlo, _⟩ := azimuthLoop_accepts fuel s az h
  exact ⟨ha, by linarith, hlo, rotationDivisor_pos_aux dir hd fuel s az h⟩

/-- Witness of C20: the unit direction `(3/5, 4/5, 0)` and the sample of the
draws `3/4, 1/2`; `a0 = 3/5` and the divisor is `1/16 * (1 - 9/25) = 1/25`. -/
theorem rotationDivisor_pos_witness :
    dot (⟨3 / 5, 4 / 5, 0⟩ : vec3 ℚ) ⟨3 / 5, 4 / 5, 0⟩ = 1 ∧
    rotationDivisor (⟨3 / 5, 4 / 5, 0⟩ : vec3 ℚ)
      ⟨1 / 4, 0, 1 / 16, ⟨fun k => if k = 0 then 3 / 4 else 1 / 2, 2⟩⟩ = 1 / 25 ∧
    0 < rotationDivisor (⟨3 / 5, 4 / 5, 0⟩ : vec3 ℚ)
      ⟨1 / 4, 0, 1 / 16, ⟨fun k => if k = 0 then 3 / 4 else 1 / 2, 2⟩⟩ :=
  ⟨by norm_num [dot],
   by norm_num [rotationDivisor, rotationA0, abs_of_nonneg],
   (rotationDivisor_pos ⟨3 / 5, 4 / 5, 0⟩ (by norm_num [dot]) 1
      ⟨fun k => if k = 0 then 3 / 4 else 1 / 2, 0⟩ _
      (by norm_num [azimuthLoop, getNextRand])).2.2.2⟩

end ConeTheorems

section RealConeTheorems

/-- C18: every point returned by `PickRandomPointOnUnitSphere` comes from a
pair `(x, y)` of the stream with `r = x² + y² < 1`, is the vector
`(2x·sqrt(1-r), 2y·sqrt(1-r), 1-2r)`, and has Euclidean length exactly `1`
over the reals; an iteration whose pair has `x² + y² ≥ 1` is not accepted. -/
theorem PickRandomPointOnUnitSphere_spec (m : FloatMath ℝ) (hm : m.sqrtf = Real.sqrt)
    (fuel : Nat) (s : curtRNGState ℝ) (res : vec3 ℝ × curtRNGState ℝ)
    (h : PickRandomPointOnUnitSphere m fuel s = some res) :
    (∃ k, s.pos ≤ k ∧
      (2 * s.draws k - 1) * (2 * s.draws k - 1)
        + (2 * s.draws (k + 1) - 1) * (2 * s.draws (k + 1) - 1) < 1 ∧
      res.1 = ⟨2 * (2 * s.draws k - 1) * Real.sqrt (1 -
                ((2 * s.draws k - 1) * (2 * s.draws k - 1)
                  + (2 * s.draws (k + 1) - 1) * (2 * s.draws (k + 1) - 1))),
               2 * (2 * s.draws (k + 1) - 1) * Real.sqrt (1 -
                ((2 * s.draws k - 1) * (2 * s.draws k - 1)
                  + (2 * s.draws (k + 1) - 1) * (2 * s.draws (k + 1) - 1))),
               1 - 2 * ((2 * s.draws k - 1) * (2 * s.draws k - 1)
                  + (2 * s.draws (k + 1) - 1) * (2 * s.draws (k + 1) - 1))⟩) ∧
    dot res.1 res.1 = 1 ∧ Real.sqrt (dot res.1 res.1) = 1 ∧
    (∀ (k : Nat) (s0 : curtRNGState ℝ),
      1 ≤ (2 * s0.draws s0.pos - 1) * (2 * s0.draws s0.pos - 1)
        + (2 * s0.draws (s0.pos + 1) - 1) * (2 * s0.draws (s0.pos + 1) - 1) →
      PickRandomPointOnUnitSphere m (k + 1) s0
        = PickRandomPointOnUnitSphere m k ⟨s0.draws, s0.pos + 1 + 1⟩) := by
  have hu := PickRandomPointOnUnitSphere_unit m hm fuel s res h
  refine ⟨?_, hu, by rw [hu, Real.sqrt_one], ?_⟩
  · induction fuel generalizing s with
    | zero => simp [PickRandomPointOnUnitSphere] at h
    | succ k ih =>
      rw [PickRandomPointOnUnitSphere] at h
      split_ifs at h with hc
      · obtain ⟨j, hj, hlt, hres⟩ := ih (curand_uniform (curand_uniform s).2).2 h
        refine ⟨j, ?_, hlt, hres⟩
        simp only [curand_uniform] at hj
        omega
      · cases h
        refine ⟨s.pos, le_refl _, not_le.mp hc, ?_⟩
        simp only [curand_uniform, hm]
        ext <;> simp only <;> ring
  · intro k s0 hge
    rw [PickRandomPointOnUnitSphere]
    simp only [curand_uniform]
    rw [if_pos hge]

/-- Witness of C18: the draws `1/2, 1/2` give `x = y = 0` and the point
`(0, 0, 1)`. -/
theorem PickRandomPointOnUnitSphere_spec_witness :
    PickRandomPointOnUnitSphere ⟨Real.sqrt, Real.cos, Real.sin, Real.cos, Real.pi⟩ 1
        ⟨fun _ => 1 / 2, 0⟩
      = some (⟨0, 0, 1⟩, ⟨fun _ => 1 / 2, 2⟩) ∧
    dot (⟨0, 0, 1⟩ : vec3 ℝ) ⟨0, 0, 1⟩ = 1 :=
  have h : PickRandomPointOnUnitSphere
        ⟨Real.sqrt, Real.cos, Real.sin, Real.cos, Real.pi⟩ 1 ⟨fun _ => 1 / 2, 0⟩
      = some (⟨0, 0, 1⟩, ⟨fun _ => 1 / 2, 2⟩) := by
    norm_num [PickRandomPointOnUnitSphere, curand_uniform]
  ⟨h, (PickRandomPointOnUnitSphere_spec _ rfl 1 _ _ h).2.1⟩

/-- C19: for a unit-length specular direction, a `costheta` in `[0, 1]` and
an accepted azimuthal point, the rotated candidate `randomDir` (after the
final component swap) is a unit vector whose inner product with the
specular direction is `costheta`, over the reals. -/
theorem rotate_on_cone (m : FloatMath ℝ) (hm : m.sqrtf = Real.sqrt) (dir : vec3 ℝ)
    (hd : dot dir dir = 1) (costheta : ℝ) (h0 : 0 ≤ costheta) (h1 : costheta ≤ 1)
    (fuel : Nat) (s : curtRNGState ℝ) (az : AzimuthSample ℝ)
    (haz : azimuthLoop fuel s = some az) :
    dot (rotate m dir costheta az) (rotate m dir costheta az) = 1 ∧
    dot (rotate m dir costheta az) dir = costheta := by
  obtain ⟨htemp, hlo, _⟩ := azimuthLoop_accepts fuel s az haz
  have hdiv := rotationDivisor_pos_aux dir hd fuel s az haz
  have hnum : 0 ≤ 1 - costheta * costheta := by nlinarith
  have hq : 0 ≤ max (1 - costheta * costheta) 0 / rotationDivisor dir az :=
    div_nonneg (le_max_right _ _) hdiv.le
  have hT := Real.mul_self_sqrt hq
  rw [max_eq_left hnum] at hT
  rw [rotate_eq_divisor, hm, max_eq_left hnum]
  generalize Real.sqrt ((1 - costheta * costheta) / rotationDivisor dir az) = T at hT ⊢
  have hE : (1 - rotationA0 dir * rotationA0 dir)
      * ((az.sinphi * T) * (az.sinphi * T) + (az.cosphi * T) * (az.cosphi * T))
      = 1 - costheta * costheta := by
    have hD : rotationDivisor dir az ≠ 0 := ne_of_gt hdiv
    have hT2 : T * T * rotationDivisor dir az = 1 - costheta * costheta := by
      rw [hT]; field_simp
    unfold rotationDivisor at hT2
    rw [htemp] at hT2
    linear_combination hT2
  simp only [dot] at hd
  by_cases hc : |dir.x| ≤ |dir.y|
  · have ha0 : rotationA0 dir = dir.x := by unfold rotationA0; rw [if_pos hc]
    rw [ha0] at hE
    simp only [ha0, if_pos hc, ne_eq, not_true_eq_false, if_false, dot]
    constructor
    · linear_combination
        ((costheta + dir.x * (az.sinphi * T)) ^ 2 + (az.cosphi * T) ^ 2) * hd + hE
    · linear_combination (costheta + dir.x * (az.sinphi * T)) * hd
  · have ha0 : rotationA0 dir = dir.y := by unfold rotationA0; rw [if_neg hc]
    have hne : dir.y ≠ dir.x := by
      intro h
      rw [h] at hc
      exact hc (le_refl _)
    rw [ha0] at hE
    simp only [ha0, if_neg hc, ne_eq, hne, not_false_eq_true, if_true, dot]
    constructor
    · linear_combination
        ((costheta + dir.y * (az.sinphi * T)) ^ 2 + (az.cosphi * T) ^ 2) * hd + hE
    · linear_combination (costheta + dir.y * (az.sinphi * T)) * hd

/-- Witness of C19: the specular direction `(0, 0, 1)`, `costheta = 1` and the
azimuthal sample of the draws `3/4, 1/2`. -/
theorem rotate_on_cone_witness :
    dot (rotate ⟨Real.sqrt, Real.cos, Real.sin, Real.cos, Real.pi⟩ ⟨0, 0, 1⟩ 1
          ⟨1 / 4, 0, 1 / 16, ⟨fun k => if k = 0 then 3 / 4 else 1 / 2, 2⟩⟩)
        (rotate ⟨Real.sqrt, Real.cos, Real.sin, Real.cos, Real.pi⟩ ⟨0, 0, 1⟩ 1
          ⟨1 / 4, 0, 1 / 16, ⟨fun k => if k = 0 then 3 / 4 else 1 / 2, 2⟩⟩) = 1 ∧
    dot (rotate ⟨Real.sqrt, Real.cos, Real.sin, Real.cos, Real.pi⟩ ⟨0, 0, 1⟩ 1
          ⟨1 / 4, 0, 1 / 16, ⟨fun k => if k = 0 then 3 / 4 else 1 / 2, 2⟩⟩)
        (⟨0, 0, 1⟩ : vec3 ℝ) = 1 :=
  rotate_on_cone _ rfl ⟨0, 0, 1⟩ (by norm_num [dot]) 1 (by norm_num) (le_refl 1) 1
    ⟨fun k => if k = 0 then 3 / 4 else 1 / 2, 0⟩ _
    (by norm_num [azimuthLoop, getNextRand])

end RealConeTheorems

section ApplyTheorems

variable {α : Type}

/-- Setting the per-species parameters twice keeps the last ones. -/
theorem particleParams_particleParams {β : Type} (lp : curtLaunchParams β)
    (p q : curtParticle β) :
    particleParams (particleParams lp p) q = particleParams lp q := rfl

/-- The calls of the launch loop: for every particle from index `i` on, in
order, the upload of its parameters, its SBT and its launch. -/
theorem launchLoop_events [LinearOrderedField α] (env : ApplyEnv α) (x y z : Nat) (ps : List (curtParticle α)) :
    ∀ (i : Nat) (lp : curtLaunchParams α) (buf : List α),
      (launchLoop env x y z ps i lp buf).1
        = (ps.enumFrom i).flatMap (fun ip =>
            [ApplyEvent.upload (particleParams lp ip.2), ApplyEvent.buildSBT ip.1,
             ApplyEvent.optixLaunch ip.1 x y z]) := by
  induction ps with
  | nil => intro i lp buf; rfl
  | cons p ps ih =>
    intro i lp buf
    rw [launchLoop]
    simp only [List.enumFrom_cons, List.flatMap_cons]
    rw [ih]
    rfl

/-- The launch loop keeps the number of values of the result buffer. -/
theorem launchLoop_length [LinearOrderedField α] (env : ApplyEnv α) (x y z : Nat) (ps : List (curtParticle α)) :
    ∀ (i : Nat) (lp : curtLaunchParams α) (buf : List α),
      (launchLoop env x y z ps i lp buf).2.2.length = buf.length := by
  induction ps with
  | nil => intro i lp buf; rfl
  | cons p ps ih =>
    intro i lp buf
    rw [launchLoop]
    simp only
    rw [ih, List.length_mapIdx]

/-- Without a fixed ray count the grid side is the truncated square root of
the element count and the multiplier is the configured one; when the `int`
product is non-negative and below `2 ^ 31`, `numRays` is that product. -/
theorem applyNumRays_of_lt (env : ApplyEnv α) (t : curtTracer α)
    (hfix : t.numberOfRaysFixed ≤ 0) (h0 : 0 ≤ t.numberOfRaysPerPoint)
    (hlt : ((Nat.sqrt (applyLaunchParams env t).numElements : Int)
        * (Nat.sqrt (applyLaunchParams env t).numElements : Int))
        * t.numberOfRaysPerPoint < 2147483648)
    (hsq : ((Nat.sqrt (applyLaunchParams env t).numElements : Int)
        * (Nat.sqrt (applyLaunchParams env t).numElements : Int)) < 2147483648) :
    applyPointsPerDim env t = (Nat.sqrt (applyLaunchParams env t).numElements : Int) ∧
    applyRaysPerPoint t = t.numberOfRaysPerPoint ∧
    (applyNumRays env t : Int)
      = ((Nat.sqrt (applyLaunchParams env t).numElements : Int)
        * (Nat.sqrt (applyLaunchParams env t).numElements : Int))
        * t.numberOfRaysPerPoint := by
  have hnf : ¬ t.numberOfRaysFixed > 0 := not_lt.mpr hfix
  have h1 : applyPointsPerDim env t
      = (Nat.sqrt (applyLaunchParams env t).numElements : Int) := by
    unfold applyPointsPerDim; rw [if_neg hnf]
  have h2 : applyRaysPerPoint t = t.numberOfRaysPerPoint := by
    unfold applyRaysPerPoint; rw [if_neg hnf]
  refine ⟨h1, h2, ?_⟩
  unfold applyNumRays
  rw [h1, h2]
  generalize hs : ((Nat.sqrt (applyLaunchParams env t).numElements : Int)
        * (Nat.sqrt (applyLaunchParams env t).numElements : Int)) = q at hlt hsq ⊢
  have hq0 : 0 ≤ q := by rw [← hs]; exact mul_self_nonneg _
  have hw1 : wrapInt q = q := by unfold wrapInt; omega
  rw [hw1]
  generalize hp : q * t.numberOfRaysPerPoint = r at hlt ⊢
  have hr0 : 0 ≤ r := by rw [← hp]; exact mul_nonneg hq0 h0
  have hw2 : wrapInt r = r := by unfold wrapInt; omega
  rw [hw2]
  unfold toSizeT
  omega

/-- With a fixed ray count `F > 0` (an `int`) the grid side is `1`, the
multiplier is `F` and `numRays = F`. -/
theorem applyNumRays_fixed (env : ApplyEnv α) (t : curtTracer α)
    (hfix : 0 < t.numberOfRaysFixed) (hint : t.numberOfRaysFixed < 2147483648) :
    applyPointsPerDim env t = 1 ∧ applyRaysPerPoint t = t.numberOfRaysFixed ∧
    (applyNumRays env t : Int) = t.numberOfRaysFixed := by
  have h1 : applyPointsPerDim env t = 1 := by
    unfold applyPointsPerDim; rw [if_pos hfix]
  have h2 : applyRaysPerPoint t = t.numberOfRaysFixed := by
    unfold applyRaysPerPoint; rw [if_pos hfix]
  refine ⟨h1, h2, ?_⟩
  unfold applyNumRays
  rw [h1, h2]
  have hw1 : wrapInt (1 * 1) = 1 := by decide
  rw [hw1, one_mul]
  generalize t.numberOfRaysFixed = r at hfix hint ⊢
  have hw2 : wrapInt r = r := by unfold wrapInt; omega
  rw [hw2]
  unfold toSizeT
  omega

/-- When the cell data assertion of `apply()` fails, the run stops there: no
call is issued after the geometry build. -/
theorem apply_of_assert_fails [LinearOrderedField α] (sizeofT : Nat) (env : ApplyEnv α)
    (t : curtTracer α)
    (hfail : (applyCellData sizeofT env t).sizeInBytes / sizeofT ≠ applyCellCount env t) :
    t.apply sizeofT env
      = ((if t.geometryValid then [] else [ApplyEvent.buildAccel]), none) := by
  unfold curtTracer.apply
  simp only [if_pos hfail]

/-- When the cell data assertion of `apply()` holds, the calls are: the
geometry build if needed, the error log if `numRays` exceeds `2 ^ 29`, per
particle in registration order the upload of its parameters, its SBT and
its launch, then the synchronisation and `normalize()`. -/
theorem apply_events [LinearOrderedField α] (sizeofT : Nat) (env : ApplyEnv α)
    (t : curtTracer α)
    (hassert : (applyCellData sizeofT env t).sizeInBytes / sizeofT = applyCellCount env t) :
    (t.apply sizeofT env).1
      = (if t.geometryValid then [] else [ApplyEvent.buildAccel])
        ++ (if applyNumRays env t > 536870912 then
              [ApplyEvent.tooManyRays (applyNumRays env t)] else [])
        ++ (t.particles.enum.flatMap (fun ip =>
              [ApplyEvent.upload (particleParams (applySeededParams env t) ip.2),
               ApplyEvent.buildSBT ip.1,
               ApplyEvent.optixLaunch ip.1 (toUInt (applyPointsPerDim env t))
                 (toUInt (applyPointsPerDim env t)) (toUInt (applyRaysPerPoint t))]))
        ++ [ApplyEvent.cudaDeviceSynchronize, ApplyEvent.normalize] := by
  unfold curtTracer.apply
  simp only [hassert, ne_eq, not_true_eq_false, if_false, applyPrepared, launchLoop_events,
    List.enum]

/-- When the cell data assertion of `apply()` holds, the state after
`apply()` is the normalised state after the launch loop, and that loop
starts from the prepared state. -/
theorem apply_state [LinearOrderedField α] (sizeofT : Nat) (env : ApplyEnv α)
    (t : curtTracer α)
    (hassert : (applyCellData sizeofT env t).sizeInBytes / sizeofT = applyCellCount env t) :
    (t.apply sizeofT env).2.map (fun r => (r.resultBuffer.length, r.numRates))
      = if applyResultCount env t = 0 then none
        else some (applyResultCount env t, t.numRates) := by
  unfold curtTracer.apply
  simp only [hassert, ne_eq, not_true_eq_false, if_false, applyPrepared,
    curtTracer.normalize, launchLoop_length, List.length_replicate]
  by_cases h0 : applyResultCount env t = 0
  · simp [h0]
  · simp [h0, normalize_surface, launchLoop_length]

/-- C13 (amended): for every configuration that passes the cell data
assertion of `apply()`, whether or not `numRays` exceeds `2 ^ 29`, one call
of `apply()` issues exactly one launch per registered particle, in
registration order, each after the upload of that particle's parameters
and the build of its SBT, then one device synchronisation, then one call of
`normalize()`; the error log is the only call that depends on the ceiling. -/
theorem apply_launches_every_particle [LinearOrderedField α] (sizeofT : Nat)
    (env : ApplyEnv α) (t : curtTracer α)
    (hassert : (applyCellData sizeofT env t).sizeInBytes / sizeofT = applyCellCount env t) :
    (t.apply sizeofT env).1
      = (if t.geometryValid then [] else [ApplyEvent.buildAccel])
        ++ (if applyNumRays env t > 536870912 then
              [ApplyEvent.tooManyRays (applyNumRays env t)] else [])
        ++ (t.particles.enum.flatMap (fun ip =>
              [ApplyEvent.upload (particleParams (applySeededParams env t) ip.2),
               ApplyEvent.buildSBT ip.1,
               ApplyEvent.optixLaunch ip.1 (toUInt (applyPointsPerDim env t))
                 (toUInt (applyPointsPerDim env t)) (toUInt (applyRaysPerPoint t))]))
        ++ [ApplyEvent.cudaDeviceSynchronize, ApplyEvent.normalize] :=
  apply_events sizeofT env t hassert

/-- C14 (amended): `prepareParticlePrograms()` leaves the result buffer and
the launch parameters as they are; in `apply()` the result buffer before
the launches holds `numElements * numRates` (an `unsigned int` product)
values, all zero, and for a configuration that passes the cell data
assertion the state after `apply()` holds that many values for the same
`numRates` (no state when the count is zero and `normalize()` asserts). -/
theorem apply_resultBuffer [LinearOrderedField α] (sizeofT : Nat) (env : ApplyEnv α)
    (t : curtTracer α)
    (hassert : (applyCellData sizeofT env t).sizeInBytes / sizeofT = applyCellCount env t) :
    (prepareParticlePrograms t).2.resultBuffer = t.resultBuffer ∧
    (prepareParticlePrograms t).2.launchParams = t.launchParams ∧
    applyResultCount env t
      = ((applyLaunchParams env t).numElements * t.numRates) % UINT_RANGE ∧
    (applyPrepared sizeofT env t).resultBuffer
      = List.replicate (applyResultCount env t) 0 ∧
    (t.apply sizeofT env).2.map (fun r => (r.resultBuffer.length, r.numRates))
      = (if applyResultCount env t = 0 then none
         else some (applyResultCount env t, t.numRates)) :=
  ⟨rfl, rfl, rfl, rfl, apply_state sizeofT env t hassert⟩

/-- The assertion of `setCellData` holds exactly when `numData` is not zero
and the truncated quotient equals the element count. -/
theorem setCellData_ok_iff (sizeofT : Nat) (t : curtTracer α)
    (b : utCudaBuffer α) (numData : Nat) :
    setCellData sizeofT t b numData = Except.ok { t with cellDataBuffer := b } ↔
      numData ≠ 0 ∧ b.sizeInBytes / sizeofT / numData = t.launchParams.numElements := by
  unfold setCellData
  by_cases h0 : numData = 0
  · simp [h0]
  · by_cases h1 : b.sizeInBytes / sizeofT / numData = t.launchParams.numElements
    · simp [h0, h1]
    · simp [h0, h1]

end ApplyTheorems

section ApplyExamples

/-- The grid side for `1440000` elements is `1200`. -/
theorem applyPointsPerDim_example :
    applyPointsPerDim exampleEnv
      (exampleTracer [exampleParticle 0 []] 1440000 0 [] 0 1 1) = 1200 := by
  simp [applyPointsPerDim, applyLaunchParams, exampleTracer, exampleEnv,
    show Nat.sqrt 1440000 = 1200 from Nat.sqrt_eq 1200]

/-- For `1440000` elements and the default multiplier `3000` the value of
`numRays` is `25032704`. -/
theorem applyNumRays_example :
    applyNumRays exampleEnv
      (exampleTracer [exampleParticle 0 []] 1440000 0 [] 0 1 1) = 25032704 := by
  unfold applyNumRays
  rw [applyPointsPerDim_example]
  decide

/-- C11 (code evaluated at the failing input): with `1440000` elements, the
default `numberOfRaysPerPoint = 3000` and no fixed ray count, the grid side
is `1200` and the multiplier `3000`, but `numRays` is `25032704`, not
`1200 * 1200 * 3000 = 4320000000`: the product is computed in `int`. -/
theorem applyNumRays_overflow :
    applyPointsPerDim exampleEnv
      (exampleTracer [exampleParticle 0 []] 1440000 0 [] 0 1 1) = 1200 ∧
    applyRaysPerPoint (exampleTracer [exampleParticle 0 []] 1440000 0 [] 0 1 1) = 3000 ∧
    applyNumRays exampleEnv
      (exampleTracer [exampleParticle 0 []] 1440000 0 [] 0 1 1) = 25032704 ∧
    (1200 * 1200 * 3000 : Nat) = 4320000000 := by
  exact ⟨applyPointsPerDim_example, by decide, applyNumRays_example, by decide⟩

/-- C12 (code evaluated at the failing input): with `1440000` elements and
the default `numberOfRaysPerPoint = 3000` the total `1200 * 1200 * 3000`
exceeds `2 ^ 29`, but `apply()` issues no `tooManyRays` call: the `int`
product wraps to `25032704`. -/
theorem apply_no_tooManyRays :
    ((exampleTracer [exampleParticle 0 []] 1440000 0 [] 0 1 1).apply 4 exampleEnv).1
      = [ApplyEvent.buildAccel,
         ApplyEvent.upload (particleParams
           (exampleTracer [exampleParticle 0 []] 1440000 0 [] 0 1 1).launchParams
           (exampleParticle 0 [])),
         ApplyEvent.buildSBT 0, ApplyEvent.optixLaunch 0 1200 1200 3000,
         ApplyEvent.cudaDeviceSynchronize, ApplyEvent.normalize] ∧
    536870912 < (1200 * 1200 * 3000 : Nat) := by
  refine ⟨?_, by decide⟩
  simp only [curtTracer.apply, applyPrepared, applyNumRays_example,
    applyPointsPerDim_example]
  simp [applyCellData, applyCellCount, applyLaunchParams, applySeededParams, exampleTracer,
    exampleEnv, applyResultCount, applyRaysPerPoint, launchLoop, toUInt, UINT_RANGE]

/-- Counterexample to C13 as stated: one registered species, two elements,
`numCellData = 0` and a cell data buffer of eight bytes. The assertion of
`apply()` fails, and no launch, synchronisation or `normalize()` is issued. -/
theorem apply_stops_at_assertion :
    ({ exampleTracer [exampleParticle 1 ["flux"]] 2 1 [] 0 1 1 with
        cellDataBuffer := ⟨8, [1, 2]⟩ }.apply 4 exampleEnv)
      = ([ApplyEvent.buildAccel], none) :=
  apply_of_assert_fails 4 exampleEnv _ (by decide)

/-- Witness of C13 (amended): two species and two elements; the calls of one
`apply()` are the geometry build, then upload, SBT and launch with the grid
`1 x 1 x 3000` for species `0` and for species `1`, the synchronisation
and `normalize()`. -/
theorem apply_launches_every_particle_witness :
    ((exampleTracer [exampleParticle 2 ["a", "b"], exampleParticle 3 ["c", "d", "e"]]
        2 5 [] 0 1 1).apply 4 exampleEnv).1
      = [ApplyEvent.buildAccel,
         ApplyEvent.upload (particleParams (exampleTracer [exampleParticle 2 ["a", "b"],
           exampleParticle 3 ["c", "d", "e"]] 2 5 [] 0 1 1).launchParams
           (exampleParticle 2 ["a", "b"])),
         ApplyEvent.buildSBT 0, ApplyEvent.optixLaunch 0 1 1 3000,
         ApplyEvent.upload (particleParams (exampleTracer [exampleParticle 2 ["a", "b"],
           exampleParticle 3 ["c", "d", "e"]] 2 5 [] 0 1 1).launchParams
           (exampleParticle 3 ["c", "d", "e"])),
         ApplyEvent.buildSBT 1, ApplyEvent.optixLaunch 1 1 1 3000,
         ApplyEvent.cudaDeviceSynchronize, ApplyEvent.normalize] :=
  (apply_launches_every_particle 4 exampleEnv _ (by decide)).trans (by
    have hs : Nat.sqrt 2 = 1 := by norm_num [Nat.sqrt, Nat.sqrt.iter]
    have hp : applyPointsPerDim exampleEnv (exampleTracer [exampleParticle 2 ["a", "b"],
        exampleParticle 3 ["c", "d", "e"]] 2 5 [] 0 1 1) = 1 := by
      simp [applyPointsPerDim, applyLaunchParams, exampleTracer, exampleEnv, hs]
    have hn : applyNumRays exampleEnv (exampleTracer [exampleParticle 2 ["a", "b"],
        exampleParticle 3 ["c", "d", "e"]] 2 5 [] 0 1 1) = 3000 := by
      unfold applyNumRays
      rw [hp]
      decide
    rw [hn, hp]
    simp [applySeededParams, applyLaunchParams, exampleTracer, exampleEnv, applyRaysPerPoint,
      toUInt, List.enum, List.enumFrom, List.flatMap])

/-- Counterexample to C14 as stated: one species with one channel and two
elements; `prepareParticlePrograms()` returns `numRates = 1` and the result
buffer still holds no value instead of `2 * 1`. -/
theorem prepareParticlePrograms_no_alloc :
    (prepareParticlePrograms
        (exampleTracer [exampleParticle 1 ["flux"]] 2 0 [] 0 1 1)).1 = 1 ∧
    (prepareParticlePrograms
        (exampleTracer [exampleParticle 1 ["flux"]] 2 0 [] 0 1 1)).2.resultBuffer = [] ∧
    (prepareParticlePrograms
        (exampleTracer [exampleParticle 1 ["flux"]] 2 0 [] 0 1 1)).2.launchParams.numElements
      = 2 := by
  decide

/-- Witness of C14 (amended): one species with one channel, two elements,
`numRates = 1`; after `apply()` the result buffer holds two values. -/
theorem apply_resultBuffer_witness :
    ((exampleTracer [exampleParticle 1 ["flux"]] 2 1 [] 0 1 1).apply 4 exampleEnv).2.map
        (fun r => (r.resultBuffer.length, r.numRates)) = some (2, 1) :=
  (apply_resultBuffer 4 exampleEnv
      (exampleTracer [exampleParticle 1 ["flux"]] 2 1 [] 0 1 1) (by decide)).2.2.2.2.trans
    (by decide)

/-- C16 (code evaluated at the failing input): for `T = float`
(`sizeof(T) = 4`), two elements and `numData = 2`, a buffer of 20 bytes
(five values instead of four) passes the assertion of `setCellData` and is
stored, and so does a buffer of 19 bytes; `numData = 0` stops at the
division, not at the assertion. -/
theorem setCellData_truncates :
    setCellData 4 (exampleTracer [] 2 0 [] 0 1 1) ⟨20, [1, 2, 3, 4, 5]⟩ 2
      = Except.ok { exampleTracer [] 2 0 [] 0 1 1 with
          cellDataBuffer := ⟨20, [1, 2, 3, 4, 5]⟩ } ∧
    setCellData 4 (exampleTracer [] 2 0 [] 0 1 1) ⟨19, [1, 2, 3, 4]⟩ 2
      = Except.ok { exampleTracer [] 2 0 [] 0 1 1 with
          cellDataBuffer := ⟨19, [1, 2, 3, 4]⟩ } ∧
    setCellData 4 (exampleTracer [] 2 0 [] 0 1 1) ⟨16, [1, 2, 3, 4]⟩ 0
      = Except.error Abort.divisionByZero ∧
    (20 : Nat) ≠ 2 * 2 * 4 := by
  refine ⟨?_, ?_, ?_, by decide⟩
  · exact (setCellData_ok_iff 4 _ _ 2).mpr ⟨by decide, by decide⟩
  · exact (setCellData_ok_iff 4 _ _ 2).mpr ⟨by decide, by decide⟩
  · rfl

end ApplyExamples

section PointDataTheorems

variable {α : Type}

/-- The lookup of a label in a list of fields with one more field in front. -/
theorem getScalarData_cons (f : String × List α) (fs : List (String × List α))
    (n : String) :
    (⟨f :: fs⟩ : lsPointData α).getScalarData n
      = if f.1 = n then some f.2 else (⟨fs⟩ : lsPointData α).getScalarData n := by
  unfold lsPointData.getScalarData
  by_cases h : f.1 = n
  · simp [List.find?_cons, h]
  · simp [List.find?_cons, h]

/-- A label has no field exactly when it is not among the labels. -/
theorem getScalarData_eq_none_iff (fs : List (String × List α)) (n : String) :
    (⟨fs⟩ : lsPointData α).getScalarData n = none ↔ n ∉ fs.map Prod.fst := by
  induction fs with
  | nil => simp [lsPointData.getScalarData]
  | cons f fs ih =>
    rw [getScalarData_cons]
    by_cases h : f.1 = n
    · simp [h]
    · rw [if_neg h, ih]
      simp only [List.map_cons, List.mem_cons, not_or]
      exact ⟨fun hh => ⟨fun e => h e.symm, hh⟩, fun hh => hh.2⟩

/-- A write to the field of one label leaves the lookup of another label as it is. -/
theorem getScalarData_setScalarData_ne (fs : List (String × List α)) (n n' : String)
    (v : List α) (h : n' ≠ n) :
    (⟨setScalarData n v fs⟩ : lsPointData α).getScalarData n'
      = (⟨fs⟩ : lsPointData α).getScalarData n' := by
  induction fs with
  | nil => rfl
  | cons f fs ih =>
    rw [setScalarData]
    by_cases hf : f.1 = n
    · have hf' : f.1 ≠ n' := by rw [hf]; exact fun e => h e.symm
      simp only [hf, beq_self_eq_true, if_true, getScalarData_cons, hf', if_false]
      rw [← hf]
      simp [hf']
    · have hb : (f.1 == n) = false := by simpa using hf
      simp only [hb, Bool.false_eq_true, if_false, getScalarData_cons, ih]

/-- A write to an existing field is what the lookup of its label returns. -/
theorem getScalarData_setScalarData_self (fs : List (String × List α)) (n : String)
    (v : List α) (h : n ∈ fs.map Prod.fst) :
    (⟨setScalarData n v fs⟩ : lsPointData α).getScalarData n = some v := by
  induction fs with
  | nil => simp at h
  | cons f fs ih =>
    rw [setScalarData]
    by_cases hf : f.1 = n
    · simp [hf, getScalarData_cons]
    · have hb : (f.1 == n) = false := by simpa using hf
      have hmem : n ∈ fs.map Prod.fst := by
        simp only [List.map_cons, List.mem_cons] at h
        rcases h with h | h
        · exact absurd h.symm hf
        · exact h
      simp only [hb, Bool.false_eq_true, if_false, getScalarData_cons, hf, ih hmem]

/-- A write to a field keeps the labels. -/
theorem map_fst_setScalarData (fs : List (String × List α)) (n : String) (v : List α) :
    (setScalarData n v fs).map Prod.fst = fs.map Prod.fst := by
  induction fs with
  | nil => rfl
  | cons f fs ih =>
    rw [setScalarData]
    by_cases hf : (f.1 == n) = true
    · simp [hf]
    · simp [hf, ih]

/-- The lookup after a field has been appended. -/
theorem getScalarData_append_single (fs : List (String × List α)) (n n' : String)
    (z : List α) :
    (⟨fs ++ [(n, z)]⟩ : lsPointData α).getScalarData n'
      = match (⟨fs⟩ : lsPointData α).getScalarData n' with
        | some v => some v
        | none => if n = n' then some z else none := by
  induction fs with
  | nil =>
    simp only [List.nil_append, getScalarData_cons]
    rfl
  | cons f fs ih =>
    rw [List.cons_append, getScalarData_cons, getScalarData_cons]
    by_cases hf : f.1 = n'
    · simp [hf]
    · simp only [hf, if_false, ih]

end PointDataTheorems

section DownloadTheorems

variable {α : Type} [LinearOrderedField α]

/-- A resized vector has the requested size. -/
theorem vectorResize_length (values : List α) (n : Nat) :
    (vectorResize values n).length = n := by
  unfold vectorResize
  rw [List.length_append, List.length_take, List.length_replicate]
  omega

/-- A copy of `n` available values over a vector of `n` values replaces it. -/
theorem memcpyValues_eq {β : Type} (dst src : List β) (n : Nat) (hd : dst.length = n)
    (hs : (src.take n).length = n) : memcpyValues dst src n = src.take n := by
  unfold memcpyValues
  rw [hs, List.drop_of_length_le (le_of_eq hd), List.append_nil]

/-- One copy of the download loop with an existing label and a source slice
inside `temp`: the field of that label holds the slice afterwards, the other
labels are looked up as before, and no label is duplicated. -/
theorem downloadField_spec (numPoints : Nat) (temp : List α) (pd : lsPointData α)
    (c : ChannelCopy) (n : String) (hn : c.name = some n)
    (hlen : ((temp.drop c.start).take numPoints).length = numPoints) :
    ∃ pd1, downloadField numPoints temp pd c = some pd1 ∧
      pd1.getScalarData n = some ((temp.drop c.start).take numPoints) ∧
      (∀ n', n' ≠ n → pd1.getScalarData n' = pd.getScalarData n') ∧
      ((pd.scalarData.map Prod.fst).Nodup → (pd1.scalarData.map Prod.fst).Nodup) := by
  obtain ⟨fs⟩ := pd
  unfold downloadField
  rw [hn]
  simp only
  by_cases hnone : (⟨fs⟩ : lsPointData α).getScalarData n = none
  · have hnot : n ∉ fs.map Prod.fst := (getScalarData_eq_none_iff fs n).mp hnone
    have hval : (⟨fs ++ [(n, List.replicate numPoints (0 : α))]⟩ : lsPointData α).getScalarData n
        = some (List.replicate numPoints 0) := by
      rw [getScalarData_append_single, hnone]
      simp
    simp only [hnone, Option.isNone_none, if_true, lsPointData.insertNextScalarData, hval,
      Option.getD_some, List.length_replicate, ne_eq, not_true_eq_false, if_false]
    rw [memcpyValues_eq _ _ numPoints (List.length_replicate _ _) hlen]
    refine ⟨_, rfl, ?_, ?_, ?_⟩
    · exact getScalarData_setScalarData_self _ n _ (by simp)
    · intro n' hne
      rw [getScalarData_setScalarData_ne _ n n' _ hne, getScalarData_append_single]
      cases hl : (⟨fs⟩ : lsPointData α).getScalarData n' with
      | none =>
        have hne' : ¬ n = n' := fun e => hne e.symm
        simp [hne']
      | some v => rfl
    · intro hnd
      rw [map_fst_setScalarData, List.map_append]
      simp only [List.map_cons, List.map_nil]
      rw [List.nodup_append]
      refine ⟨hnd, List.nodup_singleton n, ?_⟩
      intro a ha hb
      simp only [List.mem_singleton] at hb
      exact hnot (hb ▸ ha)
  · have hmem : n ∈ fs.map Prod.fst := by
      by_contra hcon
      exact hnone ((getScalarData_eq_none_iff fs n).mpr hcon)
    obtain ⟨v, hv⟩ := Option.ne_none_iff_exists'.mp hnone
    have hv1 : (if v.length ≠ numPoints then vectorResize v numPoints else v).length
        = numPoints := by
      by_cases hl : v.length = numPoints
      · simp [hl]
      · simp [hl, vectorResize_length]
    simp only [hv, Option.isNone_some, Bool.false_eq_true, if_false, Option.getD_some]
    rw [memcpyValues_eq _ _ numPoints hv1 hlen]
    refine ⟨_, rfl, ?_, ?_, ?_⟩
    · exact getScalarData_setScalarData_self _ n _ hmem
    · intro n' hne
      exact getScalarData_setScalarData_ne _ n n' _ hne
    · intro hnd
      rw [map_fst_setScalarData]
      exact hnd

end DownloadTheorems

section DownloadMain

variable {α : Type} [LinearOrderedField α]

/-- The download loop over copies with existing, distinct labels and source
slices inside `temp`: it returns a point data in which every copy's label
holds that copy's slice, the labels outside the copies are looked up as
before, and no label is duplicated. -/
theorem downloadFold_spec (numPoints : Nat) (temp : List α) (copies : List ChannelCopy) :
    ∀ (pd : lsPointData α),
      (∀ c ∈ copies, ∃ n, c.name = some n ∧
        ((temp.drop c.start).take numPoints).length = numPoints) →
      (copies.map (fun c => c.name)).Nodup →
      ∃ pd', copies.foldlM (downloadField numPoints temp) pd = some pd' ∧
        (∀ c ∈ copies, ∀ n, c.name = some n →
          pd'.getScalarData n = some ((temp.drop c.start).take numPoints)) ∧
        (∀ n, some n ∉ copies.map (fun c => c.name) →
          pd'.getScalarData n = pd.getScalarData n) ∧
        ((pd.scalarData.map Prod.fst).Nodup → (pd'.scalarData.map Prod.fst).Nodup) := by
  induction copies with
  | nil =>
    intro pd _ _
    exact ⟨pd, rfl, by simp, fun _ _ => rfl, fun h => h⟩
  | cons c cs ih =>
    intro pd hall hnd
    obtain ⟨n, hn, hlen⟩ := hall c (List.mem_cons_self _ _)
    obtain ⟨pd1, h1, hget, hother, hnd1⟩ := downloadField_spec numPoints temp pd c n hn hlen
    rw [List.map_cons, List.nodup_cons] at hnd
    obtain ⟨pd', h2, hcs, hrest, hnd2⟩ :=
      ih pd1 (fun c' hc' => hall c' (List.mem_cons_of_mem _ hc')) hnd.2
    refine ⟨pd', ?_, ?_, ?_, fun h => hnd2 (hnd1 h)⟩
    · rw [List.foldlM_cons, h1]
      exact h2
    · intro c' hc' n' hn'
      rcases List.mem_cons.mp hc' with heq | hmem
      · subst heq
        have hnn : n' = n := by rw [hn] at hn'; exact (Option.some.inj hn').symm
        subst hnn
        rw [hrest n' (by rw [← hn]; exact hnd.1)]
        exact hget
      · exact hcs c' hmem n' hn'
    · intro n' hn'
      rw [List.map_cons, List.mem_cons, not_or] at hn'
      rw [hrest n' hn'.2]
      apply hother
      intro e
      apply hn'.1
      rw [hn, e]

/-- The labels read by the download loops, in order. -/
theorem downloadCopies_names {β : Type} (numPoints : Nat) (ps : List (curtParticle β)) :
    ∀ (k : Int), (downloadCopies numPoints ps k).map (fun c => c.name)
      = ps.flatMap (fun p =>
          (List.range p.numberOfData).map (fun (d : Nat) => p.dataLabels[d]?)) := by
  induction ps with
  | nil => intro k; rfl
  | cons p ps ih =>
    intro k
    rw [downloadCopies, List.map_append, ih, List.flatMap_cons, List.map_map]
    rfl

/-- The first `n` labels of a list with at least `n` labels, read by index. -/
theorem range_map_getElem? {β : Type} (labels : List β) (n : Nat) (h : n ≤ labels.length) :
    (List.range n).map (fun (d : Nat) => labels[d]?) = (labels.take n).map some := by
  apply List.ext_getElem?
  intro i
  by_cases hi : i < n
  · have hil : i < labels.length := lt_of_lt_of_le hi h
    rw [List.getElem?_map, List.getElem?_range hi, List.getElem?_map,
      List.getElem?_take_of_lt hi]
    simp [List.getElem?_eq_getElem hil]
  · have hi' : n ≤ i := not_lt.mp hi
    rw [List.getElem?_eq_none (by simpa using hi'),
      List.getElem?_eq_none (by simp; omega)]

/-- When every species has a label for each of its channels, the labels
read by the download loops are the channel labels. -/
theorem downloadCopies_names_eq {β : Type} (numPoints : Nat) (ps : List (curtParticle β))
    (hlabels : ∀ p ∈ ps, p.numberOfData ≤ p.dataLabels.length) (k : Int) :
    (downloadCopies numPoints ps k).map (fun c => c.name)
      = (channelLabels ps).map some := by
  rw [downloadCopies_names]
  unfold channelLabels
  induction ps with
  | nil => rfl
  | cons p ps ih =>
    rw [List.flatMap_cons, List.flatMap_cons, List.map_append,
      range_map_getElem? _ _ (hlabels p (List.mem_cons_self _ _)),
      ih (fun q hq => hlabels q (List.mem_cons_of_mem _ hq))]

end DownloadMain

section DownloadClaim

variable {α : Type} [LinearOrderedField α]

/-- Counterexample to C15 as stated: species with `numberOfData` `2` and `1`
and `2147483648` elements. The copy for the third channel starts at element
offset `0`, not at `2 * 2147483648`: the offset is an `unsigned int`. -/
theorem downloadCopies_offset_wraps :
    downloadCopies 2147483648
        [exampleParticle 2 ["a", "b"], exampleParticle 1 ["c"]] 0
      = [⟨some "a", 0, 0⟩, ⟨some "b", 1, 2147483648⟩, ⟨some "c", 2, 0⟩] ∧
    (channelOffset [exampleParticle 2 ["a", "b"], exampleParticle 1 ["c"]] 1 + 0)
        * 2147483648 = 4294967296 := by
  decide

/-- C15 (amended): after `prepareParticlePrograms()`, on a result buffer of
`numElements * numRates` values, without 32-bit overflow, with a label for
every channel and all channel labels distinct,
`downloadResultsToPointData(pointData)` returns a point data in which, for
every particle `p` and every `d < numberOfData`, the field named
`dataLabels[d]` holds the `numElements` values of the result buffer from
element offset `(cumulative numberOfData of preceding particles + d) *
numElements` on; fields with other labels are as before, and when the
labels of the point data were distinct they still are (one field per
channel). -/
theorem downloadResultsToPointData_fields (t : curtTracer α) (pd : lsPointData α)
    (hsum : sumNumberOfData t.particles < 2147483648)
    (hov : t.launchParams.numElements * sumNumberOfData t.particles < UINT_RANGE)
    (hR : t.numRates = (prepareParticlePrograms t).1)
    (hB : t.resultBuffer.length = t.launchParams.numElements * t.numRates)
    (hlabels : ∀ p ∈ t.particles, p.numberOfData ≤ p.dataLabels.length)
    (hdistinct : (channelLabels t.particles).Nodup) :
    (∀ (p d : Nat) (hp : p < t.particles.length) (name : String),
      d < t.particles[p].numberOfData → t.particles[p].dataLabels[d]? = some name →
      (downloadResultsToPointData t pd).bind (fun r => r.getScalarData name)
        = some ((t.resultBuffer.drop
            ((channelOffset t.particles p + d) * t.launchParams.numElements)).take
              t.launchParams.numElements) ∧
      ((t.resultBuffer.drop
            ((channelOffset t.particles p + d) * t.launchParams.numElements)).take
              t.launchParams.numElements).length = t.launchParams.numElements) ∧
    (∀ name, name ∉ channelLabels t.particles →
      (downloadResultsToPointData t pd).bind (fun r => r.getScalarData name)
        = pd.getScalarData name) ∧
    (∀ pd', downloadResultsToPointData t pd = some pd' →
      (pd.scalarData.map Prod.fst).Nodup → (pd'.scalarData.map Prod.fst).Nodup) ∧
    (downloadResultsToPointData t pd).isSome = true := by
  have hU : UINT_RANGE = 4294967296 := rfl
  have hS : sumNumberOfData t.particles < UINT_RANGE := by omega
  have hnr : t.numRates = sumNumberOfData t.particles := by
    rw [hR]
    simp only [prepareParticlePrograms]
    rw [accumulateRates_mod _ 0 (by decide), Nat.zero_add, Nat.mod_eq_of_lt hS]
  have hm0 : (0 + sumNumberOfData t.particles) * t.launchParams.numElements
      < UINT_RANGE := by
    rw [Nat.zero_add, Nat.mul_comm]; exact hov
  have hk0 : 0 + sumNumberOfData t.particles < 2147483648 := by
    rw [Nat.zero_add]; exact hsum
  have htemp : t.resultBuffer.take
      ((t.launchParams.numElements * t.numRates) % UINT_RANGE) = t.resultBuffer := by
    rw [hnr, Nat.mod_eq_of_lt hov]
    exact List.take_of_length_le (by rw [hB, hnr])
  have hslice : ∀ k, k < sumNumberOfData t.particles →
      ((t.resultBuffer.drop (k * t.launchParams.numElements)).take
        t.launchParams.numElements).length = t.launchParams.numElements := by
    intro k hk
    have hmul : (k + 1) * t.launchParams.numElements
        ≤ t.launchParams.numElements * sumNumberOfData t.particles := by
      rw [Nat.mul_comm]
      exact Nat.mul_le_mul_left _ hk
    rw [Nat.add_mul, Nat.one_mul] at hmul
    rw [List.length_take, List.length_drop, hB, hnr]
    omega
  have hnames := downloadCopies_names_eq t.launchParams.numElements t.particles hlabels 0
  have hoff := downloadCopies_offsets t.launchParams.numElements t.particles 0 hk0 hm0
  have hall : ∀ c ∈ downloadCopies t.launchParams.numElements t.particles 0,
      ∃ n, c.name = some n ∧
        ((t.resultBuffer.drop c.start).take t.launchParams.numElements).length
          = t.launchParams.numElements := by
    intro c hc
    have h1 : c.name ∈ (channelLabels t.particles).map some := by
      rw [← hnames]; exact List.mem_map_of_mem _ hc
    obtain ⟨n, _, hn⟩ := List.mem_map.mp h1
    have h2 : (c.tmpOffset, c.start) ∈ (List.range' 0 (sumNumberOfData t.particles)).map
        (fun (k : Nat) => ((k : Int), k * t.launchParams.numElements)) := by
      rw [← hoff]
      exact List.mem_map_of_mem (fun c => (c.tmpOffset, c.start)) hc
    obtain ⟨k, hk, hkeq⟩ := List.mem_map.mp h2
    have hk' : k < sumNumberOfData t.particles := by
      have := (List.mem_range'_1.mp hk).2
      omega
    have hstart : c.start = k * t.launchParams.numElements := by
      have := congrArg Prod.snd hkeq
      exact this.symm
    exact ⟨n, hn.symm, by rw [hstart]; exact hslice k hk'⟩
  have hnd : ((downloadCopies t.launchParams.numElements t.particles 0).map
      (fun c => c.name)).Nodup := by
    rw [hnames]
    exact hdistinct.map (Option.some_injective _)
  obtain ⟨pd', hfold, hcopies, hrest, hnodup⟩ :=
    downloadFold_spec t.launchParams.numElements t.resultBuffer _ pd hall hnd
  have hdl : downloadResultsToPointData t pd = some pd' := by
    unfold downloadResultsToPointData
    simp only [htemp]
    exact hfold
  rw [hdl]
  refine ⟨?_, ?_, ?_, rfl⟩
  · intro p d hp name hd hname
    have hc := channel_lt_sum t.particles p d hp hd
    have hget := downloadCopies_getElem t.launchParams.numElements t.particles 0 p d hp hd
      hk0 hm0
    have hmem := List.getElem?_mem hget
    have := hcopies _ hmem name hname
    simp only [Nat.zero_add] at this
    exact ⟨this, hslice _ hc⟩
  · intro name hname
    apply hrest
    rw [hnames]
    intro hcon
    obtain ⟨n, hn, hsome⟩ := List.mem_map.mp hcon
    exact hname (Option.some.inj hsome ▸ hn)
  · intro pd'' hpd'' hn
    rw [← Option.some.inj hpd'']
    exact hnodup hn

/-- Witness of C15 (amended): species with the channels `a, b` and `c`, two
elements and the result buffer `0, 1, …, 5`; the field `c` receives the
values from element offset `2 * 2 = 4` on. -/
theorem downloadResultsToPointData_fields_witness :
    downloadResultsToPointData
        (exampleTracer [exampleParticle 2 ["a", "b"], exampleParticle 1 ["c"]] 2 3
          [0, 1, 2, 3, 4, 5] 0 1 1) ⟨[("b", [9])]⟩
      = some ⟨[("b", [2, 3]), ("a", [0, 1]), ("c", [4, 5])]⟩ ∧
    (downloadResultsToPointData
        (exampleTracer [exampleParticle 2 ["a", "b"], exampleParticle 1 ["c"]] 2 3
          [0, 1, 2, 3, 4, 5] 0 1 1) ⟨[("b", [9])]⟩).isSome = true :=
  ⟨by rfl,
   (downloadResultsToPointData_fields
      (exampleTracer [exampleParticle 2 ["a", "b"], exampleParticle 1 ["c"]] 2 3
        [0, 1, 2, 3, 4, 5] 0 1 1) ⟨[("b", [9])]⟩
      (by decide) (by decide) (by decide) (by decide) (by decide) (by decide)).2.2.2⟩

end DownloadClaim

section FrameTheorems

variable {α : Type}

/-- Without a fixed ray count `apply()` uses the configured multiplier. -/
theorem applyRaysPerPoint_of_not_fixed (t : curtTracer α) (h : t.numberOfRaysFixed ≤ 0) :
    applyRaysPerPoint t = t.numberOfRaysPerPoint := by
  unfold applyRaysPerPoint
  rw [if_neg (not_lt.mpr h)]

/-- After `setFixedNumberOfRays(0)` the next `apply()` uses the value stored
in `numberOfRaysPerPoint`. -/
theorem applyRaysPerPoint_setFixed_zero (t : curtTracer α) :
    applyRaysPerPoint (setFixedNumberOfRays t 0) = t.numberOfRaysPerPoint := by
  unfold applyRaysPerPoint setFixedNumberOfRays
  have h : ¬ wrapInt ((0 : Nat) : Int) > 0 := by decide
  simp only [h, if_false]

/-- When the cell data assertion holds, the state after `apply()` stores in
`numberOfRaysPerPoint` the multiplier that the step used, and keeps
`numberOfRaysFixed`. -/
theorem apply_raysPerPoint [LinearOrderedField α] (sizeofT : Nat) (env : ApplyEnv α)
    (t : curtTracer α)
    (hassert : (applyCellData sizeofT env t).sizeInBytes / sizeofT = applyCellCount env t) :
    (t.apply sizeofT env).2.map (fun r => (r.numberOfRaysPerPoint, r.numberOfRaysFixed))
      = if applyResultCount env t = 0 then none
        else some (applyRaysPerPoint t, t.numberOfRaysFixed) := by
  unfold curtTracer.apply
  simp only [hassert, ne_eq, not_true_eq_false, if_false, applyPrepared,
    curtTracer.normalize, launchLoop_length, List.length_replicate]
  by_cases h0 : applyResultCount env t = 0
  · simp [h0]
  · simp [h0]

end FrameTheorems

section FrameExamples

/-- C21 (code evaluated at the failing input): in the default state
`numberOfRaysPerPoint` is `3000`; after `setFixedNumberOfRays(5)` and one
`apply()` it is `5`, and after `setFixedNumberOfRays(0)` the next `apply()`
uses the multiplier `5`, not `3000`. -/
theorem apply_overwrites_raysPerPoint :
    (setFixedNumberOfRays
        (exampleTracer [exampleParticle 1 ["flux"]] 2 1 [] 0 1 1) 5).numberOfRaysPerPoint
      = 3000 ∧
    ((setFixedNumberOfRays (exampleTracer [exampleParticle 1 ["flux"]] 2 1 [] 0 1 1) 5).apply
        4 exampleEnv).2.map (fun r => r.numberOfRaysPerPoint) = some 5 ∧
    ((setFixedNumberOfRays (exampleTracer [exampleParticle 1 ["flux"]] 2 1 [] 0 1 1) 5).apply
        4 exampleEnv).2.map (fun r => applyRaysPerPoint (setFixedNumberOfRays r 0))
      = some 5 := by
  have h := apply_raysPerPoint 4 exampleEnv
    (setFixedNumberOfRays (exampleTracer [exampleParticle 1 ["flux"]] 2 1 [] 0 1 1) 5)
    (by decide)
  have h5 : (if applyResultCount exampleEnv (setFixedNumberOfRays
        (exampleTracer [exampleParticle 1 ["flux"]] 2 1 [] 0 1 1) 5) = 0 then none
      else some (applyRaysPerPoint (setFixedNumberOfRays
        (exampleTracer [exampleParticle 1 ["flux"]] 2 1 [] 0 1 1) 5),
        (setFixedNumberOfRays
          (exampleTracer [exampleParticle 1 ["flux"]] 2 1 [] 0 1 1) 5).numberOfRaysFixed))
      = some ((5 : Int), (5 : Int)) := by decide
  rw [h5] at h
  have hb : ((setFixedNumberOfRays
      (exampleTracer [exampleParticle 1 ["flux"]] 2 1 [] 0 1 1) 5).apply
        4 exampleEnv).2.map (fun r => r.numberOfRaysPerPoint) = some 5 := by
    have := congrArg (Option.map Prod.fst) h
    simpa [Option.map_map, Function.comp] using this
  refine ⟨by decide, hb, ?_⟩
  simp only [applyRaysPerPoint_setFixed_zero]
  exact hb

end FrameExamples

section MaterialTheorems

open psMaterialMap

/-- Every enumerator of `psMaterial` other than `GAS` is mapped to itself, and
an integer that is not the value of an enumerator is mapped to `Undefined`. -/
theorem mapToMaterial_roundtrip (m : psMaterial) (hm : m ∈ psMaterial.enumerators)
    (hg : m ≠ psMaterial.GAS) :
    mapToMaterial m.value = m ∧ isMaterial m.value m = true := by
  have h1 : mapToMaterial m.value = m := by
    simp only [psMaterial.enumerators, List.mem_cons, List.mem_singleton,
      List.not_mem_nil, or_false] at hm
    rcases hm with h | h | h | h | h | h | h | h | h | h | h | h | h | h | h | h | h | h
      | h | h
    all_goals first
      | exact absurd h hg
      | (subst h; decide)
  exact ⟨h1, by unfold isMaterial; rw [h1]; exact beq_self_eq_true m⟩

/-- An integer that is not the value of an enumerator is mapped to `Undefined`. -/
theorem mapToMaterial_of_not_enumerator (matId : Int)
    (h : ∀ m ∈ psMaterial.enumerators, m.value ≠ matId) :
    mapToMaterial matId = psMaterial.Undefined := by
  unfold mapToMaterial
  by_cases hc : matId > 17 ∨ matId < -1
  · rw [if_pos hc]
  · exfalso
    push_neg at hc
    have hr : ∃ k : Nat, k < 19 ∧ matId = (k : Int) - 1 :=
      ⟨(matId + 1).toNat, by omega, by omega⟩
    obtain ⟨k, hk, rfl⟩ := hr
    interval_cases k <;> simp [psMaterial.enumerators, psMaterial.Undefined, psMaterial.Mask,
      psMaterial.Si, psMaterial.SiO2, psMaterial.Si3N4, psMaterial.SiN, psMaterial.SiON,
      psMaterial.SiC, psMaterial.SiGe, psMaterial.PolySi, psMaterial.GaN, psMaterial.W,
      psMaterial.Al2O3, psMaterial.TiN, psMaterial.Cu, psMaterial.Polymer,
      psMaterial.Dielectric, psMaterial.Metal, psMaterial.Air, psMaterial.GAS] at h

/-- C22 (code evaluated at the failing input): `GAS = 18` is an enumerator,
but `mapToMaterial(18)` is `Undefined`, `isMaterial(18, GAS)` is false, and a
layer inserted as `GAS` is read back as `Undefined`. -/
theorem mapToMaterial_GAS :
    psMaterial.GAS ∈ psMaterial.enumerators ∧
    psMaterial.GAS.value = 18 ∧
    mapToMaterial psMaterial.GAS.value = psMaterial.Undefined ∧
    mapToMaterial psMaterial.GAS.value ≠ psMaterial.GAS ∧
    isMaterial psMaterial.GAS.value psMaterial.GAS = false ∧
    getMaterialAtIdx (insertNextMaterial [] psMaterial.GAS) 0 = psMaterial.Undefined := by
  decide

end MaterialTheorems
